import Mathlib

/-!
# pistonproxy — verification of the core protocol claims

Shallow embedding of the pistonproxy sources (`src/reader.rs`, `src/writer.rs`,
`src/packet.rs`, `src/client_packets.rs`, `src/chat.rs`, `src/server_packets.rs`,
`src/config.rs`, `src/proxy.rs`).

Conventions:
* A Rust byte (`u8`) is a `Nat` (values are `< 256` wherever they originate
  from a real byte buffer; the writer only produces values `< 256`).
* Rust `i32` / `i64` values are `Int` in two's-complement range; unsigned
  reinterpretation (`as u32`, `as u16`, `as usize`) is explicit `% 2 ^ w`.
* Byte buffers (`Vec<u8>`, slices) are `List Nat`.
* Rust `String` values are their UTF-8 byte sequences, also `List Nat`.
* A Rust runtime panic (out-of-bounds index, arithmetic underflow on `usize`,
  `Option::unwrap` / `Result::unwrap` on the failing variant) is modelled by
  the `PanicOr.panic` outcome; code that cannot panic returns plain values.
* Socket handles are opaque: a field of type `Bool` records whether the
  corresponding `Option<TcpStream>` is `Some`.  Socket I/O results and the
  backend dial (`TcpStream::connect_timeout`, 3 s) are environment oracles
  passed in as parameters.
-/

namespace PistonProxy

/-- Outcome of running Rust code that may panic (index out of bounds,
`unwrap` on `None`/`Err`, arithmetic underflow). -/
inductive PanicOr (α : Type) where
  | panic : PanicOr α
  | val : α → PanicOr α
deriving DecidableEq, Repr

/-- Reinterpret an unsigned 32-bit value (a `Nat` `< 2 ^ 32`) as a signed
`i32` (two's complement). -/
def toSigned32 (n : Nat) : Int :=
  if n < 2 ^ 31 then (n : Int) else (n : Int) - 2 ^ 32

/-- Reinterpret an unsigned 64-bit value (a `Nat` `< 2 ^ 64`) as a signed
`i64` (two's complement). -/
def toSigned64 (n : Nat) : Int :=
  if n < 2 ^ 63 then (n : Int) else (n : Int) - 2 ^ 64

/-- Rust `v as u32` on an `i32` value: the unsigned 32-bit reinterpretation. -/
def toU32 (v : Int) : Nat := (v % (2 ^ 32 : Int)).toNat

/-- Rust `v as u16` on an `i32` value: truncation to the low 16 bits. -/
def toU16 (v : Int) : Nat := (v % (2 ^ 16 : Int)).toNat

/-- Rust `v as usize` on an `i32` value (sign extension to 64 bits, then
unsigned reinterpretation). -/
def usizeOfI32 (v : Int) : Nat := (v % (2 ^ 64 : Int)).toNat

/-! ## `src/reader.rs` — `impl VarDataReader for Vec<u8>`

`SEGMENT_BITS = 0x7F`, `CONTINUE_BIT = 0x80` (`src/packet.rs`). -/

/-- Loop body of `Vec<u8>::read_int` (reader.rs 14-37).  `cursor` and
`position` are the loop variables; `acc < 2 ^ 32` is the unsigned view of the
`i32` accumulator `value`.  Each iteration checks
`position >= 32 || cursor >= self.len()` first (so the read is total), then
ORs `(byte & SEGMENT_BITS) << position` into the accumulator (an `i32` shift,
so truncated to 32 bits) and stops when `byte & CONTINUE_BIT == 0`.
Returns the signed value and the final cursor.

`position` grows by 7 per iteration and the loop exits once it reaches 32,
so the fifth recursive call is the last one possible: with `fuel = 5` the
fuel is never exhausted and the `fuel = 0` branch (returning `none`,
exactly what the guard would return) is unreachable; the fuel only makes
the recursion structural. -/
def readIntLoop (buf : List Nat) : Nat → Nat → Nat → Nat →
    Option (Int × Nat)
  | 0, _, _, _ => none
  | fuel + 1, cursor, position, acc =>
    if 32 ≤ position ∨ buf.length ≤ cursor then none
    else
      let b := buf.getD cursor 0
      let acc' := acc ||| ((b &&& 127) <<< position) % 2 ^ 32
      if b &&& 128 = 0 then some (toSigned32 acc', cursor + 1)
      else readIntLoop buf fuel (cursor + 1) (position + 7) acc'

/-- `Vec<u8>::read_int` (reader.rs 14-37): little-endian base-128 varint,
at most 5 bytes.  Returns the decoded `i32` and the number of bytes
consumed, or `none` on a non-terminated or exhausted read. -/
def read_int (buf : List Nat) (offset : Nat) : Option (Int × Nat) :=
  match readIntLoop buf 5 offset 0 0 with
  | none => none
  | some (v, endCursor) => some (v, endCursor - offset)

/-- Loop body of `Vec<u8>::read_long` (reader.rs 39-62).  Unlike `read_int`,
the source indexes `self[cursor]` *before* any bounds check: entering an
iteration with `cursor ≥ self.len()` is an out-of-bounds index, i.e. a panic.
The checks `position >= 64 || cursor >= self.len()` happen only *after* the
continuation test at the bottom of the loop.
As in `readIntLoop`, `position` grows by 7 per iteration and the check
`position + 7 >= 64` at the bottom of the loop stops the tenth iteration
from recursing, so with `fuel = 10` the fuel is never exhausted (the
`fuel = 0` branch returns what that bottom check would) and only makes the
recursion structural. -/
def readLongLoop (buf : List Nat) : Nat → Nat → Nat → Nat →
    PanicOr (Option (Int × Nat))
  | 0, _, _, _ => .val none
  | fuel + 1, cursor, position, acc =>
    if buf.length ≤ cursor then .panic
    else
      let b := buf.getD cursor 0
      let acc' := acc ||| ((b &&& 127) <<< position) % 2 ^ 64
      if b &&& 128 = 0 then .val (some (toSigned64 acc', cursor + 1))
      else if 64 ≤ position + 7 ∨ buf.length ≤ cursor + 1 then .val none
      else readLongLoop buf fuel (cursor + 1) (position + 7) acc'

/-- `Vec<u8>::read_long` (reader.rs 39-62): little-endian base-128 varint,
at most 10 bytes.  Panics (out-of-bounds index) when invoked with
`offset ≥ self.len()`. -/
def read_long (buf : List Nat) (offset : Nat) : PanicOr (Option (Int × Nat)) :=
  match readLongLoop buf 10 offset 0 0 with
  | .panic => .panic
  | .val none => .val none
  | .val (some (v, endCursor)) => .val (some (v, endCursor - offset))

/-- `Vec<u8>::read_u16` (reader.rs 64-75): big-endian unsigned 16-bit. -/
def read_u16 (buf : List Nat) (offset : Nat) : Option Nat :=
  if offset + 2 ≤ buf.length then
    some (buf.getD offset 0 * 256 + buf.getD (offset + 1) 0)
  else none

/-- Strict UTF-8 validity of a byte sequence, as checked by Rust's
`String::from_utf8` (rejects overlong encodings, surrogates, and values
above U+10FFFF). -/
def validUtf8 : List Nat → Bool
  | [] => true
  | b :: rest =>
    if b ≤ 0x7F then validUtf8 rest
    else if 0xC2 ≤ b ∧ b ≤ 0xDF then
      match rest with
      | c1 :: rest2 =>
        if 0x80 ≤ c1 ∧ c1 ≤ 0xBF then validUtf8 rest2 else false
      | [] => false
    else if 0xE0 ≤ b ∧ b ≤ 0xEF then
      match rest with
      | c1 :: c2 :: rest3 =>
        let lo1 := if b = 0xE0 then 0xA0 else 0x80
        let hi1 := if b = 0xED then 0x9F else 0xBF
        if (lo1 ≤ c1 ∧ c1 ≤ hi1) ∧ (0x80 ≤ c2 ∧ c2 ≤ 0xBF) then
          validUtf8 rest3
        else false
      | _ => false
    else if 0xF0 ≤ b ∧ b ≤ 0xF4 then
      match rest with
      | c1 :: c2 :: c3 :: rest4 =>
        let lo1 := if b = 0xF0 then 0x90 else 0x80
        let hi1 := if b = 0xF4 then 0x8F else 0xBF
        if (lo1 ≤ c1 ∧ c1 ≤ hi1) ∧ (0x80 ≤ c2 ∧ c2 ≤ 0xBF) ∧
            (0x80 ≤ c3 ∧ c3 ≤ 0xBF) then
          validUtf8 rest4
        else false
      | _ => false
    else false

/-- `Vec<u8>::read_string` (reader.rs 77-90): varint byte length, then that
many bytes of UTF-8.  The slice `self[start..end]` is taken *without* a
bounds check, so a declared length that overruns the buffer panics
(`end > self.len()`); a negative declared length becomes a huge `usize`
(`str_len as usize`) and likewise panics.  An invalid UTF-8 payload yields
the empty string together with the full advance (lossy decode). -/
def read_string (buf : List Nat) (offset : Nat) :
    PanicOr (Option (List Nat × Nat)) :=
  match read_int buf offset with
  | none => .val none
  | some (strLen, prefixLen) =>
    let start := offset + prefixLen
    let lenUsize := usizeOfI32 strLen
    if buf.length < start + lenUsize then .panic
    else
      let slice := (buf.drop start).take lenUsize
      if validUtf8 slice then .val (some (slice, prefixLen + lenUsize))
      else .val (some ([], prefixLen + lenUsize))

/-! ## `src/writer.rs` — `impl VarDataWriter for Vec<u8>`

`write_int` (writer.rs 14-44) emits base-128 little-endian groups of the
unsigned 32-bit view of the value: the loop terminates when
`value & !SEGMENT_BITS == 0` (for the unsigned view `v`, exactly `v < 128`),
emitting the final byte `v`; otherwise it emits
`(value & SEGMENT_BITS) | CONTINUE_BIT` (which is `v % 128 + 128`) and
continues with the logical right shift `(value as u32) >> 7` (`v / 128`). -/

/-- Byte sequence produced by `Vec<u8>::write_int` for the unsigned 32-bit
view `v` of the value (sequential writes starting at an append position).
The value is shifted right by 7 bits per iteration, so for a 32-bit value
five iterations always reach the terminating case: with `fuel = 5` the
fuel is never exhausted for `v < 2 ^ 32` and only makes the recursion
structural. -/
def write_int_bytes : Nat → Nat → List Nat
  | 0, _ => []
  | fuel + 1, v =>
    if v < 128 then [v]
    else (v % 128 + 128) :: write_int_bytes fuel (v / 128)

/-- `write_int` on an `i32` value: encode its unsigned 32-bit view. -/
def writeVarInt (v : Int) : List Nat := write_int_bytes 5 (toU32 v)

/-- `Vec<u8>::write_string` (writer.rs 87-96): varint byte count
(`bytes.len() as i32`), then the raw bytes. -/
def write_string_bytes (s : List Nat) : List Nat :=
  writeVarInt (s.length : Int) ++ s

/-! ## `src/packet.rs` -/

/-- `MinecraftPacket` (packet.rs 9-14).  The transient read/write `cursor`
is omitted: it is reset before every decode and never observed otherwise. -/
structure MinecraftPacket where
  len : Int
  id : Int
  data : List Nat
deriving DecidableEq, Repr

/-- `PacketParseError` (packet.rs 16-22). -/
inductive PacketParseError where
  | MalformedField : List Nat → PacketParseError
  | PacketFormatError : List Nat → PacketParseError
  | LengthMismatch : PacketParseError
  | EmptyBuffer : PacketParseError
deriving DecidableEq, Repr

/-- The UTF-8 bytes of an ASCII string literal (every Rust string appearing
in the sources is ASCII, so the code points are the bytes). -/
def asciiBytes (s : String) : List Nat := s.data.map Char.toNat

/-- The two recoverable parse errors named by the framer partial-input
property: `EmptyBuffer` and `PacketFormatError` (the reader loops for more
input on either). -/
def PacketParseError.recoverable : PacketParseError → Bool
  | .EmptyBuffer => true
  | .PacketFormatError _ => true
  | .MalformedField _ => false
  | .LengthMismatch => false

/-- `MinecraftProtocolState` (packet.rs 24-31). -/
inductive MinecraftProtocolState where
  | HANDSHAKING
  | STATUS
  | LOGIN
  | PLAY
  | NONE
deriving DecidableEq, Repr

/-- `impl From<u16> for MinecraftProtocolState` (packet.rs 33-43). -/
def MinecraftProtocolState.fromU16 (val : Nat) : MinecraftProtocolState :=
  match val with
  | 0 => .HANDSHAKING
  | 1 => .STATUS
  | 2 => .LOGIN
  | 3 => .PLAY
  | _ => .NONE

/-- `MinecraftPacket::parse_packet` (packet.rs 67-107).

Steps: empty buffer check; the 2-byte legacy-ping check (`0xFE 0x01` yields
the sentinel packet `id = 255` with `consumed = 2`); varint packet length;
varint packet id; `total_length = length_len + packet_length as usize` and
`data_length = packet_length as usize - id_len` (a `usize` subtraction that
panics if `packet_length as usize < id_len`); the buffer must hold
`total_length` bytes, else `PacketFormatError`; the payload is
`buf[offset..offset + data_length]` and `len` is `data_length as i32`. -/
def parse_packet (buf : List Nat) :
    PanicOr (Except PacketParseError (MinecraftPacket × Nat)) :=
  if buf.length = 0 then .val (.error .EmptyBuffer)
  else if buf.length = 2 ∧ buf.getD 0 0 = 0xFE ∧ buf.getD 1 0 = 0x01 then
    .val (.ok ({ len := 0, id := 255, data := [] }, 2))
  else
    match read_int buf 0 with
    | none => .val (.error (.PacketFormatError
        (asciiBytes "unable to read packet length")))
    | some (packetLength, lengthLen) =>
      match read_int buf lengthLen with
      | none => .val (.error (.PacketFormatError
          (asciiBytes "unable to read packet id")))
      | some (packetId, idLen) =>
        let offset := lengthLen + idLen
        let totalLength := lengthLen + usizeOfI32 packetLength
        if usizeOfI32 packetLength < idLen then .panic
        else
          let dataLength := usizeOfI32 packetLength - idLen
          if totalLength ≤ buf.length then
            .val (.ok ({ len := (dataLength : Int), id := packetId,
                         data := (buf.drop offset).take dataLength },
                       totalLength))
          else
            .val (.error (.PacketFormatError
              (asciiBytes "expected packet of larger total size")))

/-- `MinecraftPacket::encode` (packet.rs 116-124): varint of
`len + id_width`, then the varint id, then the payload.  (For the
intermediate overwrite-then-rewrite dance of the source see the lemma
`encode` is used under the packet invariant `len = data.len()`; with the
invariant violated the source's `copy_from_slice` panics.) -/
def MinecraftPacket.encode (p : MinecraftPacket) : List Nat :=
  let idBytes := writeVarInt p.id
  writeVarInt (p.len + (idBytes.length : Int)) ++ idBytes ++ p.data

/-! ## `src/chat.rs` -/

/-- `ChatData` (chat.rs 5-17).  The `extra : Option<Vec<ChatData>>` field is
omitted from the embedding: both constructors of the source
(`ChatData::new`, `ChatData::new_colored`) set it to `None`, so no reachable
value of this program carries a non-empty `extra` and the field never
contributes to any serialized output. -/
structure ChatData where
  text : List Nat
  bold : Bool
  italic : Bool
  underlined : Bool
  strikethrough : Bool
  obfuscated : Bool
  color : Option (List Nat)
deriving DecidableEq, Repr

/-- `ChatData::new` (chat.rs 20-31). -/
def ChatData.new (text : List Nat) : ChatData :=
  { text := text, bold := false, italic := false, underlined := false,
    strikethrough := false, obfuscated := false, color := none }

/-- `ChatData::new_colored` (chat.rs 33-44). -/
def ChatData.new_colored (text color : List Nat) : ChatData :=
  { text := text, bold := false, italic := false, underlined := false,
    strikethrough := false, obfuscated := false, color := some color }

/-- JSON string escaping (serde_json): quote and backslash are escaped;
every string serialized by this program is escape-free ASCII, so the
remaining control-character escapes are never exercised. -/
def jsonEscape (l : List Nat) : List Nat :=
  l.flatMap fun b => if b = 34 ∨ b = 92 then [92, b] else [b]

/-- A JSON string literal: quote, escaped bytes, quote. -/
def jsonString (s : List Nat) : List Nat := [34] ++ jsonEscape s ++ [34]

/-- JSON boolean literal bytes. -/
def jsonBool (b : Bool) : List Nat :=
  asciiBytes (if b then "true" else "false")

/-- `Display for ChatData` (chat.rs 47-51): `json!(self).to_string()` —
compact JSON of the serializable fields, with `color` (and `extra`) skipped
when `None`.  Serialized in struct field order; no claim below depends on
the key order chosen by `serde_json`'s map representation.  `123`/`125` are
the brace bytes. -/
def ChatData.toJsonBytes (c : ChatData) : List Nat :=
  [123] ++ asciiBytes "\"text\":" ++ jsonString c.text ++
  asciiBytes ",\"bold\":" ++ jsonBool c.bold ++
  asciiBytes ",\"italic\":" ++ jsonBool c.italic ++
  asciiBytes ",\"underlined\":" ++ jsonBool c.underlined ++
  asciiBytes ",\"strikethrough\":" ++ jsonBool c.strikethrough ++
  asciiBytes ",\"obfuscated\":" ++ jsonBool c.obfuscated ++
  (match c.color with
   | none => []
   | some col => asciiBytes ",\"color\":" ++ jsonString col) ++
  [125]

/-- `MinecraftPacket::create_disconnect_packet` (packet.rs 109-114): a fresh
packet with id `0x00` whose sole payload field is the length-prefixed chat
JSON, written through the cursored writer (so `len` equals the bytes
written). -/
def create_disconnect_packet (msg : ChatData) : MinecraftPacket :=
  let d := write_string_bytes msg.toJsonBytes
  { len := (d.length : Int), id := 0, data := d }

/-! ## `src/server_packets.rs` and the synthesized status reply -/

/-- Decimal ASCII bytes of an integer (for JSON number serialization). -/
def intBytes (i : Int) : List Nat := asciiBytes (toString i)

/-- `StatusPacket` (server_packets.rs 20-29), restricted to the single value
the proxy ever synthesizes (proxy.rs 163-176); `favicon` is `None` and
therefore skipped during serialization. -/
structure StatusPacket where
  versionName : List Nat
  versionProtocol : Int
  playersMax : Int
  playersOnline : Int
  description : ChatData
  enforcesSecureChat : Bool
deriving DecidableEq, Repr

/-- `ToString for StatusPacket` (server_packets.rs 31-35):
`json!(self).to_string()` with `sample` the empty array and `favicon`
skipped. -/
def StatusPacket.toJsonBytes (s : StatusPacket) : List Nat :=
  [123] ++ asciiBytes "\"version\":" ++
    ([123] ++ asciiBytes "\"name\":" ++ jsonString s.versionName ++
     asciiBytes ",\"protocol\":" ++ intBytes s.versionProtocol ++ [125]) ++
  asciiBytes ",\"players\":" ++
    ([123] ++ asciiBytes "\"max\":" ++ intBytes s.playersMax ++
     asciiBytes ",\"online\":" ++ intBytes s.playersOnline ++
     asciiBytes ",\"sample\":[]" ++ [125]) ++
  asciiBytes ",\"description\":" ++ s.description.toJsonBytes ++
  asciiBytes ",\"enforces_secure_chat\":" ++ jsonBool s.enforcesSecureChat ++
  [125]

/-- `impl From<StatusPacket> for MinecraftPacket` (server_packets.rs 37-44):
packet id `0x00`, payload the length-prefixed JSON document. -/
def StatusPacket.toPacket (s : StatusPacket) : MinecraftPacket :=
  let d := write_string_bytes s.toJsonBytes
  { len := (d.length : Int), id := 0, data := d }

/-- `VERSION_PROTOCOL_NAME = "1.20.4"`, `VERSION_PROTOCOL_CODE = 765`
(config.rs 8-9); the status reply built at proxy.rs 163-176. -/
def statusReplyPacket : MinecraftPacket :=
  StatusPacket.toPacket
    { versionName := asciiBytes "1.20.4", versionProtocol := 765,
      playersMax := 20, playersOnline := 0,
      description := ChatData.new_colored (asciiBytes "Hello world")
        (asciiBytes "#00ff00"),
      enforcesSecureChat := false }

/-! ## `src/client_packets.rs` -/

/-- `HandshakePacket` (client_packets.rs 5-11). -/
structure HandshakePacket where
  protocol_version : Nat
  server_address : List Nat
  server_port : Nat
  next_state : MinecraftProtocolState
deriving DecidableEq, Repr

/-- `impl TryFrom<&mut MinecraftPacket> for HandshakePacket`
(client_packets.rs 13-29): reset the cursor, then read varint
`protocol_version` (stored `as u32`), string `server_address`, big-endian
u16 `server_port`, varint `next_state` (converted through `as u16` —
truncation to the low 16 bits — and `MinecraftProtocolState::from`).  A
failing read yields `MalformedField` naming the field; a read that panics
(see `read_string`) panics. -/
def handshake_try_from (d : List Nat) :
    PanicOr (Except PacketParseError HandshakePacket) :=
  match read_int d 0 with
  | none => .val (.error (.MalformedField (asciiBytes "protocol_version")))
  | some (f1, n1) =>
    match read_string d n1 with
    | .panic => .panic
    | .val none => .val (.error (.MalformedField (asciiBytes "server_address")))
    | .val (some (f2, n2)) =>
      match read_u16 d (n1 + n2) with
      | none => .val (.error (.MalformedField (asciiBytes "server_port")))
      | some f3 =>
        match read_int d (n1 + n2 + 2) with
        | none => .val (.error (.MalformedField (asciiBytes "next_state")))
        | some (f4, _) =>
          .val (.ok { protocol_version := toU32 f1, server_address := f2,
                      server_port := f3,
                      next_state := MinecraftProtocolState.fromU16 (toU16 f4) })

/-- `impl TryFrom<&mut MinecraftPacket> for PingPacket`
(client_packets.rs 49-59): a single signed 64-bit varint `timestamp`. -/
def ping_try_from (d : List Nat) : PanicOr (Except PacketParseError Int) :=
  match read_long d 0 with
  | .panic => .panic
  | .val none => .val (.error (.MalformedField (asciiBytes "timestamp")))
  | .val (some (t, _)) => .val (.ok t)

/-! ## `src/config.rs` -/

/-- `LogLevel` (config.rs 12-18). -/
inductive LogLevel where
  | NONE
  | CONNECTION
  | VERBOSE
  | DEBUG
deriving DecidableEq, Repr

/-- `ConfigSettings` (config.rs 20-34).  `handshake_timeout` (milliseconds)
is carried by the configuration but — as the theorems below make precise —
never consulted by any code path of the program. -/
structure ConfigSettings where
  cache_size : Nat
  handshake_timeout : Nat
  client_buffer_size : Nat
  client_packets_limit : Nat
  backend_buffer_size : Nat
  ratelimit_window : Nat
  ratelimit : Nat
  concurrent_limit : Nat
  clients_limit : Nat
  listen : Nat
  log : LogLevel
  log_inspect_buffer_limit : Nat
deriving DecidableEq, Repr

/-- `ConfigEndpoint` (config.rs 36-42); strings as UTF-8 bytes. -/
structure ConfigEndpoint where
  hostname : List Nat
  origin : Option (List Nat)
  motd : Option (List Nat)
  message : Option (List Nat)
deriving DecidableEq, Repr

/-- `Config` (config.rs 44-49). -/
structure Config where
  settings : ConfigSettings
  endpoints : List ConfigEndpoint
  blocklist : List (List Nat)
deriving DecidableEq, Repr

/-- `Config::find_endpoint` (config.rs 51-55): first entry whose hostname
equals the address exactly. -/
def Config.find_endpoint (c : Config) (addr : List Nat) :
    Option ConfigEndpoint :=
  c.endpoints.find? fun ep => ep.hostname == addr

/-- `BUFFER_SIZE = 4096` (config.rs 10): the fixed chunk array size and the
initial size of both pending-send buffers. -/
def BUFFER_SIZE : Nat := 4096

/-! ## `src/proxy.rs` -/

/-- `ProxySocketState` (proxy.rs 15-22). -/
inductive ProxySocketState where
  | Handshake
  | Closed
  | Status
  | Login
  | Forward
deriving DecidableEq, Repr

/-- The mutable per-session record `ProxySocketInfo` (proxy.rs 36-51).
`client_addr` (logging only) and `last_activity` (a wall-clock timestamp,
set by `switch_state` and never read) are omitted; socket handles are
presence booleans. -/
structure SessionInfo where
  state : ProxySocketState
  handshake_packet : Option HandshakePacket
  disconnect_on_join : Option (List Nat)
  client_socket : Bool
  client_send_buffer : List Nat
  client_send_buffer_len : Nat
  backend_addr : Option (List Nat)
  backend_socket : Bool
  backend_send_buffer : List Nat
  backend_send_buffer_len : Nat
deriving DecidableEq, Repr

/-- `SharedProxySocketInfo::new` (proxy.rs 56-73). -/
def initialSession : SessionInfo :=
  { state := .Handshake, handshake_packet := none, disconnect_on_join := none,
    client_socket := true,
    client_send_buffer := List.replicate BUFFER_SIZE 0,
    client_send_buffer_len := 0,
    backend_addr := none, backend_socket := false,
    backend_send_buffer := List.replicate BUFFER_SIZE 0,
    backend_send_buffer_len := 0 }

/-- `ProxySocketInfo::switch_state` (proxy.rs 353-357); the `last_activity`
update has no observable effect in the embedding. -/
def switch_state (s : SessionInfo) (newState : ProxySocketState) :
    SessionInfo :=
  { s with state := newState }

/-- `dst[start..start + src.len()].copy_from_slice(&src)`: overwrite the
range `[start, start + src.length)` of `dst`; panics when the range falls
outside `dst` (slice index out of bounds).  Written as a simultaneous
recursion on `start`/`src` along `dst`; the lemma `writeRange_eq` below
shows it equals the direct description "panic iff
`dst.length < start + src.length`, else
`dst.take start ++ src ++ dst.drop (start + src.length)`". -/
def writeRange : List Nat → Nat → List Nat → PanicOr (List Nat)
  | dst, 0, [] => .val dst
  | [], 0, _ :: _ => .panic
  | [], _ + 1, _ => .panic
  | _ :: dst, 0, b :: src =>
    match writeRange dst 0 src with
    | .panic => .panic
    | .val r => .val (b :: r)
  | d :: dst, start + 1, src =>
    match writeRange dst start src with
    | .panic => .panic
    | .val r => .val (d :: r)

/-- `"Bad Gateway"` (proxy.rs 223). -/
def badGatewayMsg : List Nat := asciiBytes "Bad Gateway"

/-- Result of handling one parsed packet inside the client-reader loop
(proxy.rs 128-244): the updated shared record, the packets written to the
client socket (already encoded), whether the client socket was shut down,
whether the local `cursor` was reset to `0` (the `Login`-with-origin
branch), and the updated `backend_thread_handle.is_some()` flag. -/
structure PacketEffect where
  info : SessionInfo
  clientWrites : List (List Nat)
  clientShutdown : Bool
  resetCursor : Bool
  spawned : Bool
deriving DecidableEq, Repr

/-- The per-packet dispatch of `handle_connection` (proxy.rs 128-244),
parameterized by the already-shifted residual buffer contents
`residual = buf[0..cursor]`, the `backend_thread_handle.is_some()` flag
`spawned`, and the dial oracle `dialOk` (the outcome of
`TcpStream::connect_timeout(origin, 3 s)`, `false` covering both connection
errors and the 3-second timeout).

Faithful quirks of the source preserved here:
* `HandshakePacket::try_from(&mut packet).unwrap()` (line 131) panics on a
  decode error instead of closing the session;
* in the `Login`-with-origin branch the residual bytes are copied into
  `backend_send_buffer` at offset `backend_send_buffer_len` (lines 199-201)
  but `backend_send_buffer_len` is **not** increased, and `cursor` is reset;
* the state is switched to `Forward` (line 196) *before* the dial; on a dial
  failure the guard `state == Forward` (line 221) holds and the state
  regresses to `Status` with the pending-disconnect message `"Bad Gateway"`;
* `PingPacket::try_from(&mut packet).unwrap()` (line 183) panics on a decode
  error or on the out-of-bounds read inside `read_long`. -/
def handle_packet (cfg : Config) (spawned dialOk : Bool) (s : SessionInfo)
    (pkt : MinecraftPacket) (residual : List Nat) : PanicOr PacketEffect :=
  if s.state = .Handshake then
    if pkt.id = 0 then
      match handshake_try_from pkt.data with
      | .panic => .panic
      | .val (.error _) => .panic
      | .val (.ok hs) =>
        let s1 := { s with handshake_packet := some hs }
        match hs.next_state with
        | .STATUS => .val ⟨switch_state s1 .Status, [], false, false, spawned⟩
        | .LOGIN => .val ⟨switch_state s1 .Login, [], false, false, spawned⟩
        | _ => .val ⟨switch_state s1 .Closed, [], true, false, spawned⟩
    else
      .val ⟨s, [], false, false, spawned⟩
  else if s.state = .Status then
    if pkt.id = 0 then
      match s.disconnect_on_join with
      | some message =>
        let out := (create_disconnect_packet (ChatData.new message)).encode
        .val ⟨switch_state { s with disconnect_on_join := none } .Closed,
              [out], true, false, spawned⟩
      | none =>
        .val ⟨s, [statusReplyPacket.encode], false, false, spawned⟩
    else if pkt.id = 1 then
      match ping_try_from pkt.data with
      | .panic => .panic
      | .val (.error _) => .panic
      | .val (.ok _) => .val ⟨s, [pkt.encode], false, false, spawned⟩
    else
      .val ⟨s, [], false, false, spawned⟩
  else if s.state = .Login then
    match s.handshake_packet with
    | none => .panic
    | some hs =>
      match cfg.find_endpoint hs.server_address with
      | some ep =>
        match ep.origin with
        | some origin =>
          let s1 := switch_state s .Forward
          match writeRange s1.backend_send_buffer s1.backend_send_buffer_len
              residual with
          | .panic => .panic
          | .val buf' =>
            let s2 := { s1 with backend_send_buffer := buf' }
            if spawned then
              .val ⟨s2, [], false, true, spawned⟩
            else if dialOk then
              .val ⟨({ s2 with
                       backend_addr := some origin
                       backend_socket := true }), [], false, true, true⟩
            else if s2.state = .Forward then
              .val ⟨{ switch_state s2 .Status with
                      disconnect_on_join := some badGatewayMsg },
                    [], false, true, spawned⟩
            else
              .val ⟨s2, [], false, true, spawned⟩
        | none =>
          let message := ep.message.getD (asciiBytes "Server configuration error")
          let out := (create_disconnect_packet
            (ChatData.new_colored message (asciiBytes "#0ad4d9"))).encode
          .val ⟨switch_state s .Closed, [out], true, false, spawned⟩
      | none =>
        let out := (create_disconnect_packet
          (ChatData.new (asciiBytes "Hello world!"))).encode
        .val ⟨switch_state s .Closed, [out], true, false, spawned⟩
  else
    .val ⟨s, [], false, false, spawned⟩

/-- Thread-local state of the client-reader loop (proxy.rs 83-97): the parse
buffer `buf` (`vec![0; client_buffer_size]`), its fill `cursor`, and
`backend_thread_handle.is_some()`. -/
structure ClientLocal where
  buf : List Nat
  cursor : Nat
  spawned : Bool
deriving DecidableEq, Repr

/-- Result of processing one received chunk under the session lock. -/
structure ChunkEffect where
  info : SessionInfo
  loc : ClientLocal
  clientWrites : List (List Nat)
  backendWrites : List (List Nat)
  clientShutdown : Bool
  stop : Bool
deriving DecidableEq, Repr

/-- `buf.copy_within(len..cursor, 0)` (proxy.rs 125): slide the region
`[len, cursor)` to the front; positions at and beyond `cursor - len` keep
their old contents. -/
def shiftBuf (buf : List Nat) (len cursor : Nat) : List Nat :=
  ((buf.drop len).take (cursor - len)) ++ buf.drop (cursor - len)

/-- The packet-parse loop of `handle_connection` (proxy.rs 120-265):
`while cursor > 0 && state != Forward && state != Closed`, parse
`buf[0..cursor]`, on success shift the buffer and dispatch the packet; on
any parse error break (all four arms of the error match break).  Each
successful parse consumes at least one byte, so the loop runs at most
`cursor + 1` times; the `fuel` parameter (always instantiated with
`cursor + 1`) is therefore never exhausted and only makes the recursion
structural. -/
def parse_loop (cfg : Config) (dialOk : Bool) (fuel : Nat) (s : SessionInfo)
    (l : ClientLocal) (clientWrites : List (List Nat))
    (clientShutdown : Bool) :
    PanicOr (SessionInfo × ClientLocal × List (List Nat) × Bool) :=
  match fuel with
  | 0 => .val (s, l, clientWrites, clientShutdown)
  | fuel + 1 =>
    if l.cursor > 0 ∧ s.state ≠ .Forward ∧ s.state ≠ .Closed then
      match parse_packet (l.buf.take l.cursor) with
      | .panic => .panic
      | .val (.error _) => .val (s, l, clientWrites, clientShutdown)
      | .val (.ok (pkt, n)) =>
        let buf' := shiftBuf l.buf n l.cursor
        let cursor' := l.cursor - n
        match handle_packet cfg l.spawned dialOk s pkt (buf'.take cursor') with
        | .panic => .panic
        | .val eff =>
          parse_loop cfg dialOk fuel eff.info
            { buf := buf', cursor := if eff.resetCursor then 0 else cursor',
              spawned := eff.spawned }
            (clientWrites ++ eff.clientWrites)
            (clientShutdown || eff.clientShutdown)
    else .val (s, l, clientWrites, clientShutdown)

/-- One iteration of the client-reader `while` loop for a received chunk
(proxy.rs 98-283), entirely under the session lock:

1. an empty read (EOF) or a `Closed` session shuts the socket down and stops;
2. `cursor + len > client_buffer_size` switches the session to `Closed` and
   shuts the socket down (the buffered bytes are not appended); otherwise the
   chunk is appended at `cursor`;
3. the parse loop (above) runs;
4. if the session is in `Forward`, `buf[0..cursor]` is appended to
   `backend_send_buffer` — this time with `backend_send_buffer_len`
   increased — and `cursor` reset;
5. if `backend_send_buffer_len > 0` and the backend socket exists, the
   filled prefix is written to the backend socket and the buffer is
   `clear()`ed (its length becomes 0, so a later copy into it panics). -/
def handle_chunk (cfg : Config) (dialOk : Bool) (s : SessionInfo)
    (l : ClientLocal) (chunk : List Nat) : PanicOr ChunkEffect :=
  if chunk.length = 0 ∨ s.state = .Closed then
    .val ⟨s, l, [], [], true, true⟩
  else
    let step2 : PanicOr (SessionInfo × ClientLocal × Bool) :=
      if cfg.settings.client_buffer_size < l.cursor + chunk.length then
        .val (switch_state s .Closed, l, true)
      else
        match writeRange l.buf l.cursor chunk with
        | .panic => .panic
        | .val buf' =>
          .val (s, { l with buf := buf', cursor := l.cursor + chunk.length },
                false)
    match step2 with
    | .panic => .panic
    | .val (s1, l1, sd1) =>
      match parse_loop cfg dialOk (l1.cursor + 1) s1 l1 [] sd1 with
      | .panic => .panic
      | .val (s2, l2, cw, sd2) =>
        let step4 : PanicOr (SessionInfo × ClientLocal) :=
          if s2.state = .Forward then
            match writeRange s2.backend_send_buffer s2.backend_send_buffer_len
                (l2.buf.take l2.cursor) with
            | .panic => .panic
            | .val bb =>
              .val (({ s2 with
                       backend_send_buffer := bb
                       backend_send_buffer_len :=
                         s2.backend_send_buffer_len + l2.cursor }),
                    { l2 with cursor := 0 })
          else .val (s2, l2)
        match step4 with
        | .panic => .panic
        | .val (s3, l3) =>
          if 0 < s3.backend_send_buffer_len ∧ s3.backend_socket then
            .val ⟨({ s3 with
                     backend_send_buffer := []
                     backend_send_buffer_len := 0 }), l3, cw,
                  [s3.backend_send_buffer.take s3.backend_send_buffer_len],
                  sd2, false⟩
          else
            .val ⟨s3, l3, cw, [], sd2, false⟩

/-- The thread-local state of `handle_backend_connection`
(proxy.rs 290-343): scratch buffer (`vec![0; backend_buffer_size]`) and its
fill. -/
structure BackendLocal where
  buf : List Nat
  cursor : Nat
deriving DecidableEq, Repr

/-- One iteration of the backend-reader `while` loop for a received chunk
(proxy.rs 305-342): EOF / `Closed` stops; overflowing
`backend_buffer_size` closes the session and both sockets; otherwise the
chunk is appended; in `Forward`, the pending client-bound buffer (if any)
and then the scratch buffer are written to the client socket. -/
def backend_chunk (cfg : Config) (s : SessionInfo) (l : BackendLocal)
    (chunk : List Nat) :
    PanicOr (SessionInfo × BackendLocal × List (List Nat) × Bool) :=
  if chunk.length = 0 ∨ s.state = .Closed then
    .val (s, l, [], true)
  else
    let step2 : PanicOr (SessionInfo × BackendLocal) :=
      if cfg.settings.backend_buffer_size < l.cursor + chunk.length then
        .val (switch_state s .Closed, l)
      else
        match writeRange l.buf l.cursor chunk with
        | .panic => .panic
        | .val buf' =>
          .val (s, { l with buf := buf', cursor := l.cursor + chunk.length })
    match step2 with
    | .panic => .panic
    | .val (s1, l1) =>
      if s1.state = .Forward then
        if s1.client_socket then
          let pending :=
            if 0 < s1.client_send_buffer_len then
              [s1.client_send_buffer.take s1.client_send_buffer_len]
            else []
          .val ({ s1 with client_send_buffer_len := 0 },
                { l1 with cursor := 0 },
                pending ++ [l1.buf.take l1.cursor], false)
        else .val (s1, l1, [], false)
      else .val (s1, l1, [], false)

/-- The client-reader loop over a whole trace of received chunks
(proxy.rs 98-283): chunks are processed in arrival order; after the loop
breaks (EOF or `Closed`) the remaining trace is ignored. -/
def run_chunks (cfg : Config) (dialOk : Bool) (s : SessionInfo)
    (l : ClientLocal) : List (List Nat) → PanicOr ChunkEffect
  | [] => .val ⟨s, l, [], [], false, false⟩
  | chunk :: rest =>
    match handle_chunk cfg dialOk s l chunk with
    | .panic => .panic
    | .val eff =>
      if eff.stop then .val eff
      else
        match run_chunks cfg dialOk eff.info eff.loc rest with
        | .panic => .panic
        | .val eff' =>
          .val ⟨eff'.info, eff'.loc, eff.clientWrites ++ eff'.clientWrites,
                eff.backendWrites ++ eff'.backendWrites,
                eff.clientShutdown || eff'.clientShutdown, eff'.stop⟩

/-- Thread-local state at the top of `handle_connection` (proxy.rs 83-97):
`buf = vec![0; client_buffer_size]`, `cursor = 0`, no backend thread. -/
def initialClientLocal (cfg : Config) : ClientLocal :=
  { buf := List.replicate cfg.settings.client_buffer_size 0, cursor := 0,
    spawned := false }

/-! ## Concrete scenario data used by the theorems -/

/-- Replace only the `handshake_timeout` tunable of a configuration. -/
def withHandshakeTimeout (cfg : Config) (t : Nat) : Config :=
  { cfg with settings := { cfg.settings with handshake_timeout := t } }

/-- A small concrete configuration: one routing entry mapping hostname
`"a"` to a backend origin. -/
def exampleConfig : Config :=
  { settings := { cache_size := 0
                  handshake_timeout := 5000
                  client_buffer_size := 16
                  client_packets_limit := 0
                  backend_buffer_size := 16
                  ratelimit_window := 0
                  ratelimit := 0
                  concurrent_limit := 0
                  clients_limit := 10
                  listen := 25565
                  log := .DEBUG
                  log_inspect_buffer_limit := 0 }
    endpoints := [{ hostname := [97]
                    origin := some (asciiBytes "127.0.0.1:25566")
                    motd := none
                    message := none }]
    blocklist := [] }

/-- A single TCP segment carrying the framed Handshake packet
(`protocol = 0`, `server_address = "a"`, `port = 0`, `next_state = 2`),
a framed Login-start packet (`id = 0`, one payload byte), and one residual
byte `0xAA` of a further, incomplete packet. -/
def loginChunkWithResidual : List Nat :=
  [7, 0, 0, 1, 97, 0, 0, 2] ++ [2, 0, 1] ++ [170]

/-- The session invariant of the spec, strengthened by the auxiliary fact
that makes it inductive: whenever the session is in `Forward` the backend
socket handle is present, and whenever the backend worker thread has been
spawned the backend socket handle is present. -/
def backendInv (s : SessionInfo) (spawned : Bool) : Prop :=
  (s.state = .Forward → s.backend_socket = true) ∧
  (spawned = true → s.backend_socket = true)

end PistonProxy

namespace PistonProxy

/-- `writeRange` agrees with the direct slice description from the source:
a panic exactly when the target range overruns `dst`, otherwise the
overwritten list. -/
theorem writeRange_eq : ∀ (dst : List Nat) (start : Nat) (src : List Nat),
    writeRange dst start src
      = if dst.length < start + src.length then .panic
        else .val (dst.take start ++ src ++ dst.drop (start + src.length)) := by
  intro dst
  induction dst with
  | nil =>
    intro start src
    match start, src with
    | 0, [] => rfl
    | 0, b :: src =>
      simp only [writeRange]
      rw [if_pos (by simp)]
    | start + 1, src =>
      simp only [writeRange]
      rw [if_pos (by simp only [List.length_nil]; omega)]
  | cons d dst ih =>
    intro start src
    match start, src with
    | 0, [] =>
      simp only [writeRange]
      rw [if_neg (by simp)]
      simp
    | 0, b :: src =>
      simp only [writeRange]
      rw [ih 0 src]
      by_cases h : dst.length < 0 + src.length
      · rw [if_pos h, if_pos (by simp only [List.length_cons]; omega)]
      · rw [if_neg h, if_neg (by simp only [List.length_cons]; omega)]
        simp
    | start + 1, src =>
      simp only [writeRange]
      rw [ih start src]
      by_cases h : dst.length < start + src.length
      · rw [if_pos h, if_pos (by simp only [List.length_cons]; omega)]
      · rw [if_neg h, if_neg (by simp only [List.length_cons]; omega)]
        simp [Nat.add_right_comm start 1 src.length]


/-! ## Byte-level facts (exhaustive over the 256 byte values) -/

set_option maxRecDepth 4096 in
theorem byte_and127_eq_mod (b : Nat) : b < 256 → b &&& 127 = b % 128 := by
  revert b; decide

set_option maxRecDepth 4096 in
theorem byte_and128_hi (b : Nat) : b < 256 → 128 ≤ b → b &&& 128 = 128 := by
  revert b; decide

set_option maxRecDepth 4096 in
theorem byte_and128_lo (b : Nat) : b < 128 → b &&& 128 = 0 := by
  revert b; decide

set_option maxRecDepth 4096 in
theorem byte_and127_lo (b : Nat) : b < 128 → b &&& 127 = b := by
  revert b; decide

/-! ## Disjoint OR is addition -/

theorem lor_shiftLeft_eq_add (b : Nat) {a k : Nat} (h : a < 2 ^ k) :
    a ||| b <<< k = b <<< k + a := by
  have hR : b <<< k + a = 2 ^ k * b + a := by
    rw [Nat.shiftLeft_eq]; ring
  apply Nat.eq_of_testBit_eq
  intro i
  rw [Nat.testBit_lor, Nat.testBit_shiftLeft, hR,
      Nat.testBit_mul_pow_two_add b h i]
  rcases Nat.lt_or_ge i k with hik | hik
  · rw [if_pos hik]
    have hlt : ¬(i ≥ k) := by omega
    simp [hlt]
  · rw [if_neg (by omega)]
    have ha : a.testBit i = false :=
      Nat.testBit_lt_two_pow
        (lt_of_lt_of_le h (Nat.pow_le_pow_right (by norm_num) hik))
    simp [ha, hik]

/-! ## Shape of `write_int_bytes` -/

theorem write_int_bytes_lt (fuel v : Nat) (h : v < 128) :
    write_int_bytes (fuel + 1) v = [v] := by
  rw [write_int_bytes, if_pos h]

theorem write_int_bytes_ge (fuel v : Nat) (h : 128 ≤ v) :
    write_int_bytes (fuel + 1) v
      = (v % 128 + 128) :: write_int_bytes fuel (v / 128) := by
  rw [write_int_bytes, if_neg (by omega)]

theorem write_int_bytes_length_pos (fuel v : Nat) :
    0 < (write_int_bytes (fuel + 1) v).length := by
  rcases Nat.lt_or_ge v 128 with h | h
  · rw [write_int_bytes_lt fuel v h]
    simp
  · rw [write_int_bytes_ge fuel v h]
    simp

theorem write_int_bytes_length_le : ∀ fuel v : Nat,
    (write_int_bytes fuel v).length ≤ fuel := by
  intro fuel
  induction fuel with
  | zero =>
    intro v
    rw [show write_int_bytes 0 v = [] from rfl]
    simp
  | succ fuel ih =>
    intro v
    rcases Nat.lt_or_ge v 128 with h | h
    · rw [write_int_bytes_lt fuel v h]
      simp
    · rw [write_int_bytes_ge fuel v h]
      simp only [List.length_cons]
      have := ih (v / 128)
      omega

theorem write_int_bytes_all_lt_256 : ∀ fuel v : Nat,
    ∀ x ∈ write_int_bytes fuel v, x < 256 := by
  intro fuel
  induction fuel with
  | zero =>
    intro v x hx
    rw [show write_int_bytes 0 v = [] from rfl] at hx
    simp at hx
  | succ fuel ih =>
    intro v x hx
    rcases Nat.lt_or_ge v 128 with h | h
    · rw [write_int_bytes_lt fuel v h] at hx
      simp at hx
      omega
    · rw [write_int_bytes_ge fuel v h] at hx
      rcases List.mem_cons.mp hx with rfl | hx
      · omega
      · exact ih _ x hx

theorem write_int_bytes_take_mem : ∀ fuel v k : Nat,
    k < (write_int_bytes fuel v).length →
      ∀ x ∈ (write_int_bytes fuel v).take k, 128 ≤ x ∧ x < 256 := by
  intro fuel
  induction fuel with
  | zero =>
    intro v k hk
    rw [show write_int_bytes 0 v = [] from rfl] at hk
    simp at hk
  | succ fuel ih =>
    intro v k hk x hx
    rcases Nat.lt_or_ge v 128 with h | h
    · rw [write_int_bytes_lt fuel v h] at hk hx
      simp at hk
      subst hk
      simp at hx
    · rw [write_int_bytes_ge fuel v h] at hk hx
      match k with
      | 0 => simp at hx
      | k + 1 =>
        simp only [List.take_succ_cons, List.mem_cons] at hx
        rcases hx with rfl | hx
        · constructor <;> omega
        · exact ih _ k (by simpa using hk) x hx

theorem write_int_bytes_length_one (fuel v : Nat) (hv : v < 2 ^ (7 * fuel))
    (h : (write_int_bytes fuel v).length = 1) :
    v < 128 ∧ write_int_bytes fuel v = [v] := by
  match fuel with
  | 0 =>
    rw [show write_int_bytes 0 v = [] from rfl] at h
    simp at h
  | fuel + 1 =>
    rcases Nat.lt_or_ge v 128 with hlt | hge
    · exact ⟨hlt, write_int_bytes_lt fuel v hlt⟩
    · exfalso
      rw [write_int_bytes_ge fuel v hge] at h
      simp only [List.length_cons] at h
      match fuel, hv with
      | 0, hv =>
        have h7 : (2 : Nat) ^ (7 * (0 + 1)) = 128 := by norm_num
        omega
      | fuel + 1, _ =>
        have := write_int_bytes_length_pos fuel (v / 128)
        omega

theorem getD_append_at (pre : List Nat) (b : Nat) (l : List Nat) :
    (pre ++ b :: l).getD pre.length 0 = b := by
  rw [List.getD_append_right _ _ _ _ (le_refl _)]
  simp

theorem getD_mem_of_lt (l : List Nat) (n : Nat) (h : n < l.length) :
    l.getD n 0 ∈ l := by
  induction l generalizing n with
  | nil => simp at h
  | cons a t ih =>
    match n with
    | 0 => simp
    | n + 1 =>
      simp only [List.getD_cons_succ, List.mem_cons]
      exact Or.inr (ih n (by simpa using h))

theorem readIntLoop_continuation_none (buf : List Nat) :
    ∀ (fuel cursor position acc : Nat),
      (∀ i, cursor ≤ i → i < buf.length →
        128 ≤ buf.getD i 0 ∧ buf.getD i 0 < 256) →
      readIntLoop buf fuel cursor position acc = none := by
  intro fuel
  induction fuel with
  | zero =>
    intro cursor position acc h
    rfl
  | succ fuel ih =>
    intro cursor position acc h
    rw [readIntLoop]
    by_cases hg : 32 ≤ position ∨ buf.length ≤ cursor
    · rw [if_pos hg]
    · have hg' := hg
      push_neg at hg'
      have hbyte := h cursor (le_refl _) (by omega)
      have hne : buf.getD cursor 0 &&& 128 = 128 :=
        byte_and128_hi _ hbyte.2 hbyte.1
      rw [if_neg hg]
      simp only [hne]
      rw [if_neg (by norm_num)]
      exact ih (cursor + 1) (position + 7) _
        (fun i hi hl => h i (by omega) hl)

theorem readIntLoop_bounds (buf : List Nat) :
    ∀ (fuel cursor position acc : Nat) (v : Int) (e : Nat),
      readIntLoop buf fuel cursor position acc = some (v, e) →
      cursor < e ∧ e ≤ buf.length := by
  intro fuel
  induction fuel with
  | zero =>
    intro cursor position acc v e hp
    rw [show readIntLoop buf 0 cursor position acc = none from rfl] at hp
    cases hp
  | succ fuel ih =>
    intro cursor position acc v e hp
    rw [readIntLoop] at hp
    by_cases hg : 32 ≤ position ∨ buf.length ≤ cursor
    · rw [if_pos hg] at hp
      cases hp
    · rw [if_neg hg] at hp
      have hg' := hg
      push_neg at hg'
      by_cases hb : buf.getD cursor 0 &&& 128 = 0
      · simp only [hb, if_pos] at hp
        simp only [Option.some.injEq, Prod.mk.injEq] at hp
        obtain ⟨h1, h2⟩ := hp
        omega
      · simp only [if_neg hb] at hp
        have := ih (cursor + 1) (position + 7) _ v e hp
        omega

theorem readIntLoop_write : ∀ (fuelW v : Nat) (pre rest : List Nat)
    (position acc fuelR : Nat),
    v < 2 ^ (7 * fuelW) →
    v < 2 ^ (32 - position) → acc < 2 ^ position → position ≤ 28 →
    position % 7 = 0 →
    (write_int_bytes fuelW v).length ≤ fuelR → 1 ≤ fuelW →
    readIntLoop (pre ++ (write_int_bytes fuelW v ++ rest)) fuelR pre.length
        position acc
      = some (toSigned32 (v <<< position + acc),
              pre.length + (write_int_bytes fuelW v).length) := by
  intro fuelW
  induction fuelW with
  | zero =>
    intro v pre rest position acc fuelR _ _ _ _ _ _ hf1
    omega
  | succ fuelW ih =>
    intro v pre rest position acc fuelR hvW hv hacc hpos hdvd hfR hf1
    rcases Nat.lt_or_ge v 128 with hsmall | hbig
    · rw [write_int_bytes_lt fuelW v hsmall] at hfR ⊢
      match fuelR, hfR with
      | fuelR + 1, _ =>
        have hlen : pre.length < (pre ++ ([v] ++ rest)).length := by
          simp
        rw [readIntLoop, if_neg (by push_neg; exact ⟨by omega, hlen⟩)]
        simp only [show pre ++ ([v] ++ rest) = pre ++ v :: rest from by simp,
          getD_append_at]
        rw [if_pos (byte_and128_lo v hsmall), byte_and127_lo v hsmall]
        have hshift : v <<< position < 2 ^ 32 := by
          rw [Nat.shiftLeft_eq]
          have h1 := (Nat.mul_lt_mul_right
            (pow_pos (by norm_num : (0 : Nat) < 2) position)).mpr hv
          calc v * 2 ^ position < 2 ^ (32 - position) * 2 ^ position := h1
          _ = 2 ^ 32 := by
            rw [← pow_add]
            congr 1
            omega
        rw [Nat.mod_eq_of_lt hshift, lor_shiftLeft_eq_add v hacc]
        simp
    · rw [write_int_bytes_ge fuelW v hbig] at hfR ⊢
      have hf1' : 1 ≤ fuelW := by
        rcases Nat.eq_zero_or_pos fuelW with rfl | h
        · exfalso
          have h7 : (2 : Nat) ^ (7 * (0 + 1)) = 128 := by norm_num
          omega
        · omega
      have hvW' : v / 128 < 2 ^ (7 * fuelW) := by
        rw [Nat.div_lt_iff_lt_mul (by norm_num)]
        calc v < 2 ^ (7 * (fuelW + 1)) := hvW
        _ = 2 ^ (7 * fuelW) * 128 := by
          rw [show 7 * (fuelW + 1) = 7 * fuelW + 7 from by ring, pow_add]
          norm_num
      have hpos21 : position ≤ 21 := by
        have h7 : (2 : Nat) ^ 7 < 2 ^ (32 - position) := by
          calc (2 : Nat) ^ 7 = 128 := by norm_num
          _ ≤ v := hbig
          _ < 2 ^ (32 - position) := hv
        have := (Nat.pow_lt_pow_iff_right (a := 2) (by norm_num)).mp h7
        omega
      have hb256 : v % 128 + 128 < 256 := by omega
      have hb128 : 128 ≤ v % 128 + 128 := by omega
      have hband127 : (v % 128 + 128) &&& 127 = v % 128 := by
        rw [byte_and127_eq_mod _ hb256]
        omega
      have hband128 : (v % 128 + 128) &&& 128 = 128 :=
        byte_and128_hi _ hb256 hb128
      match fuelR, hfR with
      | fuelR + 1, hfR =>
        have hlen : pre.length <
            (pre ++ ((v % 128 + 128) :: write_int_bytes fuelW (v / 128)
              ++ rest)).length := by
          simp
        rw [readIntLoop, if_neg (by push_neg; exact ⟨by omega, hlen⟩)]
        simp only [show
          pre ++ ((v % 128 + 128) :: write_int_bytes fuelW (v / 128) ++ rest)
            = pre ++ (v % 128 + 128)
              :: (write_int_bytes fuelW (v / 128) ++ rest)
          from by simp, getD_append_at]
        rw [hband127, if_neg (by rw [hband128]; omega)]
        have e7 : (2 : Nat) ^ (position + 7) = 2 ^ position * 128 := by
          rw [pow_add]
          norm_num
        have hmod128 : v % 128 < 128 := Nat.mod_lt _ (by norm_num)
        have hchunk : (v % 128) <<< position < 2 ^ 32 := by
          rw [Nat.shiftLeft_eq]
          have h1 := (Nat.mul_lt_mul_right
            (pow_pos (by norm_num : (0 : Nat) < 2) position)).mpr hmod128
          have h2 : (128 : Nat) * 2 ^ position ≤ 2 ^ 32 := by
            have h3 : (128 : Nat) * 2 ^ position = 2 ^ (position + 7) := by
              rw [e7]
              ring
            rw [h3]
            exact Nat.pow_le_pow_right (by norm_num) (by omega)
          exact lt_of_lt_of_le h1 h2
        rw [Nat.mod_eq_of_lt hchunk, lor_shiftLeft_eq_add (v % 128) hacc]
        have hacc' : (v % 128) <<< position + acc < 2 ^ (position + 7) := by
          rw [Nat.shiftLeft_eq, e7]
          have h1 : v % 128 * 2 ^ position ≤ 127 * 2 ^ position :=
            Nat.mul_le_mul_right _ (by omega)
          calc v % 128 * 2 ^ position + acc
              ≤ 127 * 2 ^ position + acc := Nat.add_le_add_right h1 _
          _ < 127 * 2 ^ position + 2 ^ position := Nat.add_lt_add_left hacc _
          _ = 2 ^ position * 128 := by ring
        have hdiv : v / 128 < 2 ^ (32 - (position + 7)) := by
          rw [Nat.div_lt_iff_lt_mul (by norm_num)]
          calc v < 2 ^ (32 - position) := hv
          _ = 2 ^ (32 - (position + 7)) * 128 := by
            rw [show (32 : Nat) - position = (32 - (position + 7)) + 7 from by
              omega, pow_add]
            norm_num
        have hstep := ih (v / 128) (pre ++ [v % 128 + 128]) rest (position + 7)
          ((v % 128) <<< position + acc) fuelR hvW' hdiv hacc' (by omega)
          (by omega) (by simpa using hfR) hf1'
        simp only [List.append_assoc, List.singleton_append,
          List.length_append, List.length_cons, List.length_nil] at hstep
        rw [show pre.length + (0 + 1) = pre.length + 1 from by omega] at hstep
        rw [hstep]
        have hval : (v / 128) <<< (position + 7) + ((v % 128) <<< position + acc)
            = v <<< position + acc := by
          rw [Nat.shiftLeft_eq, Nat.shiftLeft_eq, Nat.shiftLeft_eq, e7]
          have hv128 : 128 * (v / 128) + v % 128 = v := Nat.div_add_mod v 128
          calc (v / 128) * (2 ^ position * 128) + (v % 128 * 2 ^ position + acc)
              = (128 * (v / 128) + v % 128) * 2 ^ position + acc := by ring
          _ = v * 2 ^ position + acc := by rw [hv128]
        rw [hval]
        simp only [List.length_cons, Option.some.injEq, Prod.mk.injEq]
        exact ⟨trivial, by omega⟩

theorem read_int_write (v : Nat) (pre rest : List Nat) (hv : v < 2 ^ 32) :
    read_int (pre ++ (write_int_bytes 5 v ++ rest)) pre.length
      = some (toSigned32 v, (write_int_bytes 5 v).length) := by
  have h := readIntLoop_write 5 v pre rest 0 0 5
    (by
      calc v < 2 ^ 32 := hv
      _ ≤ 2 ^ (7 * 5) := by norm_num)
    (by simpa using hv) (by norm_num) (by norm_num) (by norm_num)
    (write_int_bytes_length_le 5 v) (by norm_num)
  rw [read_int, h]
  simp

theorem read_int_write_prefix_none (fuel v k : Nat) (pre : List Nat)
    (hk : k < (write_int_bytes fuel v).length) :
    read_int (pre ++ (write_int_bytes fuel v).take k) pre.length = none := by
  have hbytes : ∀ i, pre.length ≤ i →
      i < (pre ++ (write_int_bytes fuel v).take k).length →
      128 ≤ (pre ++ (write_int_bytes fuel v).take k).getD i 0 ∧
      (pre ++ (write_int_bytes fuel v).take k).getD i 0 < 256 := by
    intro i hi hlen
    rw [List.getD_append_right _ _ _ _ hi]
    have hlt : i - pre.length < ((write_int_bytes fuel v).take k).length := by
      rw [List.length_append] at hlen
      omega
    exact write_int_bytes_take_mem fuel v k hk _ (getD_mem_of_lt _ _ hlt)
  rw [read_int, readIntLoop_continuation_none _ 5 _ _ _ hbytes]


theorem toU32_lt (v : Int) : toU32 v < 2 ^ 32 := by
  rw [toU32]
  have h1 : 0 ≤ v % (2 ^ 32 : Int) := Int.emod_nonneg v (by norm_num)
  have h2 : v % (2 ^ 32 : Int) < 2 ^ 32 := Int.emod_lt_of_pos v (by norm_num)
  omega

theorem toSigned32_toU32 (x : Int) (h1 : -(2 ^ 31) ≤ x) (h2 : x < 2 ^ 31) :
    toSigned32 (toU32 x) = x := by
  rw [toSigned32, toU32]
  split <;> omega

theorem toU32_of_nonneg (x : Int) (h1 : 0 ≤ x) (h2 : x < 2 ^ 32) :
    toU32 x = x.toNat := by
  rw [toU32]
  omega

theorem usizeOfI32_of_nonneg (x : Int) (h1 : 0 ≤ x) (h2 : x < 2 ^ 64) :
    usizeOfI32 x = x.toNat := by
  rw [usizeOfI32]
  omega

theorem parse_packet_encode (p : MinecraftPacket)
    (hinv : p.len = (p.data.length : Int))
    (hlen : p.data.length + 10 < 2 ^ 31)
    (hid1 : -(2 ^ 31) ≤ p.id) (hid2 : p.id < 2 ^ 31) :
    parse_packet p.encode = .val (.ok (p, p.encode.length)) := by
  have hB1 : 1 ≤ (writeVarInt p.id).length := write_int_bytes_length_pos 4 _
  have hB6 : (writeVarInt p.id).length ≤ 6 :=
    le_trans (write_int_bytes_length_le 5 _) (by norm_num)
  have hL0 : 0 ≤ p.len + ((writeVarInt p.id).length : Int) := by
    rw [hinv]; positivity
  have hL31 : p.len + ((writeVarInt p.id).length : Int) < 2 ^ 31 := by
    rw [hinv]
    push_cast
    omega
  have hreadL : read_int
      (writeVarInt (p.len + ((writeVarInt p.id).length : Int))
        ++ (writeVarInt p.id ++ p.data)) 0
      = some (p.len + ((writeVarInt p.id).length : Int),
          (writeVarInt (p.len + ((writeVarInt p.id).length : Int))).length) := by
    have h := read_int_write (toU32 (p.len + ((writeVarInt p.id).length : Int)))
      [] (writeVarInt p.id ++ p.data) (toU32_lt _)
    rw [toSigned32_toU32 _ (by omega) hL31] at h
    simpa using h
  have hreadI : read_int
      (writeVarInt (p.len + ((writeVarInt p.id).length : Int))
        ++ (writeVarInt p.id ++ p.data))
      (writeVarInt (p.len + ((writeVarInt p.id).length : Int))).length
      = some (p.id, (writeVarInt p.id).length) := by
    have h := read_int_write (toU32 p.id)
      (writeVarInt (p.len + ((writeVarInt p.id).length : Int))) p.data
      (toU32_lt _)
    rw [toSigned32_toU32 _ hid1 hid2] at h
    exact h
  have hA1 : 1 ≤ (writeVarInt (p.len + ((writeVarInt p.id).length : Int))).length :=
    write_int_bytes_length_pos 4 _
  have hencode : p.encode
      = writeVarInt (p.len + ((writeVarInt p.id).length : Int))
        ++ (writeVarInt p.id ++ p.data) := by
    rw [MinecraftPacket.encode, List.append_assoc]
  rw [hencode]
  rw [parse_packet]
  rw [if_neg (show ¬(writeVarInt (p.len + ((writeVarInt p.id).length : Int))
      ++ (writeVarInt p.id ++ p.data)).length = 0 from by
    rw [List.length_append]; omega)]
  rw [if_neg (show ¬((writeVarInt (p.len + ((writeVarInt p.id).length : Int))
      ++ (writeVarInt p.id ++ p.data)).length = 2 ∧
      (writeVarInt (p.len + ((writeVarInt p.id).length : Int))
        ++ (writeVarInt p.id ++ p.data)).getD 0 0 = 0xFE ∧
      (writeVarInt (p.len + ((writeVarInt p.id).length : Int))
        ++ (writeVarInt p.id ++ p.data)).getD 1 0 = 0x01) from by
    rintro ⟨hl2, hg0, hg1⟩
    rw [List.length_append, List.length_append] at hl2
    have hA1' : (write_int_bytes 5 (toU32 (p.len + ((writeVarInt p.id).length : Int)))).length = 1 := by
      have : (writeVarInt (p.len + ((writeVarInt p.id).length : Int))).length = 1 := by omega
      exact this
    obtain ⟨hw, hAeq⟩ := write_int_bytes_length_one 5 _ (lt_of_lt_of_le (toU32_lt _) (by norm_num)) hA1'
    have hAeq' : writeVarInt (p.len + ((writeVarInt p.id).length : Int))
        = [toU32 (p.len + ((writeVarInt p.id).length : Int))] := hAeq
    rw [hAeq'] at hg0
    simp at hg0
    omega)]
  rw [hreadL]
  simp only [hreadI]
  have husize : usizeOfI32 (p.len + ((writeVarInt p.id).length : Int))
      = p.data.length + (writeVarInt p.id).length := by
    rw [usizeOfI32_of_nonneg _ hL0 (by omega), hinv]
    omega
  rw [husize]
  rw [if_neg (by omega)]
  rw [if_pos (by rw [List.length_append, List.length_append]; omega)]
  have hdrop : List.drop
      ((writeVarInt (p.len + ((writeVarInt p.id).length : Int))).length
        + (writeVarInt p.id).length)
      (writeVarInt (p.len + ((writeVarInt p.id).length : Int))
        ++ (writeVarInt p.id ++ p.data))
      = p.data := by
    rw [show writeVarInt (p.len + ((writeVarInt p.id).length : Int))
          ++ (writeVarInt p.id ++ p.data)
        = (writeVarInt (p.len + ((writeVarInt p.id).length : Int))
          ++ writeVarInt p.id) ++ p.data from by
      rw [List.append_assoc],
      show (writeVarInt (p.len + ((writeVarInt p.id).length : Int))).length
          + (writeVarInt p.id).length
        = (writeVarInt (p.len + ((writeVarInt p.id).length : Int))
          ++ writeVarInt p.id).length from by
      rw [List.length_append]]
    exact List.drop_left _ _
  rw [hdrop]
  rw [show p.data.length + (writeVarInt p.id).length - (writeVarInt p.id).length
      = p.data.length from by omega]
  rw [List.take_length]
  rw [← hinv]
  simp only [PanicOr.val.injEq, Except.ok.injEq, Prod.mk.injEq,
    List.length_append]
  exact ⟨trivial, by omega⟩

theorem list_eq_pair_of (l : List Nat) (h2 : l.length = 2)
    (h0 : l.getD 0 0 = 254) (h1 : l.getD 1 0 = 1) : l = [254, 1] := by
  match l, h2 with
  | [a, b], _ =>
    simp only [List.getD_cons_zero, List.getD_cons_succ] at h0 h1
    rw [h0, h1]

theorem parse_take_aux (wL wI : Nat) (D : List Nat) (k : Nat)
    (hwL : wL < 2 ^ 32) (hwI : wI < 2 ^ 32)
    (husz : usizeOfI32 (toSigned32 wL)
      = D.length + (write_int_bytes 5 wI).length)
    (hk : k < (write_int_bytes 5 wL).length
      + ((write_int_bytes 5 wI).length + D.length))
    (hex : ¬(k = 2 ∧
      (write_int_bytes 5 wL ++ (write_int_bytes 5 wI ++ D)).take 2 = [0xFE, 0x01])) :
    ∃ e, parse_packet
        ((write_int_bytes 5 wL ++ (write_int_bytes 5 wI ++ D)).take k)
        = .val (.error e) ∧ e.recoverable = true := by
  have hA1 : 1 ≤ (write_int_bytes 5 wL).length := write_int_bytes_length_pos 4 _
  have hB1 : 1 ≤ (write_int_bytes 5 wI).length := write_int_bytes_length_pos 4 _
  rcases Nat.eq_zero_or_pos k with rfl | hk0
  · refine ⟨.EmptyBuffer, ?_, rfl⟩
    rw [List.take_zero, parse_packet,
        if_pos (show List.length ([] : List Nat) = 0 from rfl)]
  rcases Nat.lt_or_ge k (write_int_bytes 5 wL).length with hkA | hkA
  · -- k bytes are a strict prefix of the length varint
    have htake : (write_int_bytes 5 wL ++ (write_int_bytes 5 wI ++ D)).take k
        = (write_int_bytes 5 wL).take k := by
      rw [List.take_append_eq_append_take,
          Nat.sub_eq_zero_of_le (le_of_lt hkA), List.take_zero,
          List.append_nil]
    have hlenk : ((write_int_bytes 5 wL).take k).length = k := by
      rw [List.length_take]
      omega
    have hnone : read_int ((write_int_bytes 5 wL).take k) 0 = none := by
      have h := read_int_write_prefix_none 5 wL k [] hkA
      simpa using h
    rw [htake, parse_packet]
    rw [if_neg (by omega)]
    rw [if_neg (show ¬(((write_int_bytes 5 wL).take k).length = 2 ∧
        ((write_int_bytes 5 wL).take k).getD 0 0 = 0xFE ∧
        ((write_int_bytes 5 wL).take k).getD 1 0 = 0x01) from by
      rintro ⟨hl2, hg0, hg1⟩
      have h1lt : 1 < ((write_int_bytes 5 wL).take k).length := by omega
      have := write_int_bytes_take_mem 5 wL k hkA _ (getD_mem_of_lt _ 1 h1lt)
      omega)]
    rw [hnone]
    exact ⟨.PacketFormatError (asciiBytes "unable to read packet length"),
      rfl, rfl⟩
  rcases Nat.lt_or_ge k ((write_int_bytes 5 wL).length
      + (write_int_bytes 5 wI).length) with hkB | hkB
  · -- the length varint is complete, the id varint is cut
    have hj : k - (write_int_bytes 5 wL).length < (write_int_bytes 5 wI).length := by
      omega
    have hz : k - (write_int_bytes 5 wL).length - (write_int_bytes 5 wI).length
        = 0 := Nat.sub_eq_zero_of_le (le_of_lt hj)
    have htake : (write_int_bytes 5 wL ++ (write_int_bytes 5 wI ++ D)).take k
        = write_int_bytes 5 wL
          ++ (write_int_bytes 5 wI).take (k - (write_int_bytes 5 wL).length) := by
      rw [List.take_append_eq_append_take,
          List.take_of_length_le hkA,
          List.take_append_eq_append_take,
          hz, List.take_zero, List.append_nil]
    have hlenk : (write_int_bytes 5 wL
        ++ (write_int_bytes 5 wI).take (k - (write_int_bytes 5 wL).length)).length
        = k := by
      rw [List.length_append, List.length_take]
      omega
    have hreadL : read_int (write_int_bytes 5 wL
        ++ (write_int_bytes 5 wI).take (k - (write_int_bytes 5 wL).length)) 0
        = some (toSigned32 wL, (write_int_bytes 5 wL).length) := by
      have h := read_int_write wL []
        ((write_int_bytes 5 wI).take (k - (write_int_bytes 5 wL).length)) hwL
      simpa using h
    have hreadI : read_int (write_int_bytes 5 wL
        ++ (write_int_bytes 5 wI).take (k - (write_int_bytes 5 wL).length))
        (write_int_bytes 5 wL).length = none :=
      read_int_write_prefix_none 5 wI _ (write_int_bytes 5 wL) hj
    rw [htake, parse_packet]
    rw [if_neg (by omega)]
    rw [if_neg (show ¬((write_int_bytes 5 wL
        ++ (write_int_bytes 5 wI).take (k - (write_int_bytes 5 wL).length)).length = 2 ∧
        (write_int_bytes 5 wL
          ++ (write_int_bytes 5 wI).take (k - (write_int_bytes 5 wL).length)).getD 0 0 = 0xFE ∧
        (write_int_bytes 5 wL
          ++ (write_int_bytes 5 wI).take (k - (write_int_bytes 5 wL).length)).getD 1 0 = 0x01)
        from by
      rintro ⟨hl2, hg0, hg1⟩
      have hl2' := hl2
      rw [hlenk] at hl2'
      apply hex
      refine ⟨by omega, ?_⟩
      have htk2 : (write_int_bytes 5 wL ++ (write_int_bytes 5 wI ++ D)).take 2
          = write_int_bytes 5 wL
            ++ (write_int_bytes 5 wI).take (k - (write_int_bytes 5 wL).length) := by
        rw [show (2 : Nat) = k from by omega]
        exact htake
      rw [htk2]
      exact list_eq_pair_of _ hl2 hg0 hg1)]
    rw [hreadL]
    simp only [hreadI]
    exact ⟨.PacketFormatError (asciiBytes "unable to read packet id"),
      rfl, rfl⟩
  · -- both varints complete, the payload is short
    have hj : k - (write_int_bytes 5 wL).length - (write_int_bytes 5 wI).length
        < D.length := by omega
    have htake : (write_int_bytes 5 wL ++ (write_int_bytes 5 wI ++ D)).take k
        = write_int_bytes 5 wL ++ (write_int_bytes 5 wI
          ++ D.take (k - (write_int_bytes 5 wL).length
            - (write_int_bytes 5 wI).length)) := by
      rw [List.take_append_eq_append_take,
          List.take_of_length_le hkA,
          List.take_append_eq_append_take,
          List.take_of_length_le (by omega)]
    have hlenk : (write_int_bytes 5 wL ++ (write_int_bytes 5 wI
        ++ D.take (k - (write_int_bytes 5 wL).length
          - (write_int_bytes 5 wI).length))).length = k := by
      rw [List.length_append, List.length_append, List.length_take]
      omega
    have hreadL : read_int (write_int_bytes 5 wL ++ (write_int_bytes 5 wI
        ++ D.take (k - (write_int_bytes 5 wL).length
          - (write_int_bytes 5 wI).length))) 0
        = some (toSigned32 wL, (write_int_bytes 5 wL).length) := by
      have h := read_int_write wL []
        (write_int_bytes 5 wI ++ D.take (k - (write_int_bytes 5 wL).length
          - (write_int_bytes 5 wI).length)) hwL
      simpa using h
    have hreadI : read_int (write_int_bytes 5 wL ++ (write_int_bytes 5 wI
        ++ D.take (k - (write_int_bytes 5 wL).length
          - (write_int_bytes 5 wI).length))) (write_int_bytes 5 wL).length
        = some (toSigned32 wI, (write_int_bytes 5 wI).length) :=
      read_int_write wI (write_int_bytes 5 wL) _ hwI
    rw [htake, parse_packet]
    rw [if_neg (by omega)]
    rw [if_neg (show ¬((write_int_bytes 5 wL ++ (write_int_bytes 5 wI
        ++ D.take (k - (write_int_bytes 5 wL).length
          - (write_int_bytes 5 wI).length))).length = 2 ∧
        (write_int_bytes 5 wL ++ (write_int_bytes 5 wI
          ++ D.take (k - (write_int_bytes 5 wL).length
            - (write_int_bytes 5 wI).length))).getD 0 0 = 0xFE ∧
        (write_int_bytes 5 wL ++ (write_int_bytes 5 wI
          ++ D.take (k - (write_int_bytes 5 wL).length
            - (write_int_bytes 5 wI).length))).getD 1 0 = 0x01) from by
      rintro ⟨hl2, hg0, hg1⟩
      rw [hlenk] at hl2
      have hAlen1 : (write_int_bytes 5 wL).length = 1 := by omega
      obtain ⟨hw, hAeq⟩ := write_int_bytes_length_one 5 wL (lt_of_lt_of_le hwL (by norm_num)) hAlen1
      rw [hAeq] at hg0
      simp at hg0
      omega)]
    rw [hreadL]
    simp only [hreadI]
    rw [husz]
    rw [if_neg (by omega)]
    rw [if_neg (by rw [hlenk]; omega)]
    exact ⟨.PacketFormatError (asciiBytes "expected packet of larger total size"),
      rfl, rfl⟩

theorem parse_packet_encode_prefix (p : MinecraftPacket) (k : Nat)
    (hinv : p.len = (p.data.length : Int))
    (hlen : p.data.length + 10 < 2 ^ 31)
    (hk : k < p.encode.length)
    (hex : ¬(k = 2 ∧ p.encode.take 2 = [0xFE, 0x01])) :
    ∃ e, parse_packet (p.encode.take k) = .val (.error e) ∧
      e.recoverable = true := by
  have hB1 : 1 ≤ (writeVarInt p.id).length := write_int_bytes_length_pos 4 _
  have hB6 : (writeVarInt p.id).length ≤ 6 :=
    le_trans (write_int_bytes_length_le 5 _) (by norm_num)
  have hL0 : 0 ≤ p.len + ((writeVarInt p.id).length : Int) := by
    rw [hinv]; positivity
  have hL31 : p.len + ((writeVarInt p.id).length : Int) < 2 ^ 31 := by
    rw [hinv]
    push_cast
    omega
  have henc : p.encode
      = writeVarInt (p.len + ((writeVarInt p.id).length : Int))
        ++ (writeVarInt p.id ++ p.data) := by
    rw [MinecraftPacket.encode, List.append_assoc]
  rw [henc] at hk hex ⊢
  rw [List.length_append, List.length_append] at hk
  have husz : usizeOfI32
      (toSigned32 (toU32 (p.len + ((writeVarInt p.id).length : Int))))
      = p.data.length + (writeVarInt p.id).length := by
    rw [toSigned32_toU32 _ (by omega) hL31,
        usizeOfI32_of_nonneg _ hL0 (by omega), hinv]
    omega
  exact parse_take_aux (toU32 (p.len + ((writeVarInt p.id).length : Int)))
    (toU32 p.id) p.data k (toU32_lt _) (toU32_lt _) husz hk hex

/-! ## Session-level lemmas -/

theorem handle_packet_backendInv (cfg : Config) (spawned dialOk : Bool)
    (s : SessionInfo) (pkt : MinecraftPacket) (residual : List Nat)
    (eff : PacketEffect)
    (h : handle_packet cfg spawned dialOk s pkt residual = .val eff)
    (hinv : backendInv s spawned) : backendInv eff.info eff.spawned := by
  simp only [handle_packet] at h
  obtain ⟨hF, hS⟩ := hinv
  repeat' split at h
  all_goals first
    | (injection h with h; subst h)
    | injection h
  all_goals constructor
  all_goals intro hyp
  all_goals simp_all [switch_state, backendInv]

theorem parse_loop_backendInv (cfg : Config) (dialOk : Bool) :
    ∀ (fuel : Nat) (s : SessionInfo) (l : ClientLocal)
      (cw : List (List Nat)) (sd : Bool)
      (r : SessionInfo × ClientLocal × List (List Nat) × Bool),
      parse_loop cfg dialOk fuel s l cw sd = .val r →
      backendInv s l.spawned → backendInv r.1 r.2.1.spawned := by
  intro fuel
  induction fuel with
  | zero =>
    intro s l cw sd r h hinv
    simp only [parse_loop] at h
    injection h with h
    subst h
    exact hinv
  | succ fuel ih =>
    intro s l cw sd r h hinv
    simp only [parse_loop] at h
    split at h
    · split at h
      · injection h
      · injection h with h
        subst h
        exact hinv
      · split at h
        · injection h
        · rename_i pkt n heqp eff heqe
          exact ih _ _ _ _ _ h
            (handle_packet_backendInv _ _ _ _ _ _ _ heqe hinv)
    · injection h with h
      subst h
      exact hinv

theorem handle_chunk_backendInv (cfg : Config) (dialOk : Bool)
    (s : SessionInfo) (l : ClientLocal) (chunk : List Nat) (e : ChunkEffect)
    (h : handle_chunk cfg dialOk s l chunk = .val e)
    (hinv : backendInv s l.spawned) : backendInv e.info e.loc.spawned := by
  simp only [handle_chunk] at h
  split at h
  · injection h with h
    subst h
    exact hinv
  · split at h
    · injection h
    · rename_i s1 l1 sd1 heq2
      have hinv1 : backendInv s1 l1.spawned := by
        split at heq2
        · injection heq2 with heq2
          injection heq2 with h1 heq2
          injection heq2 with h2 h3
          subst h1
          subst h2
          exact ⟨(fun hc => by cases hc), hinv.2⟩
        · split at heq2
          · injection heq2
          · injection heq2 with heq2
            injection heq2 with h1 heq2
            injection heq2 with h2 h3
            subst h1
            subst h2
            exact ⟨hinv.1, hinv.2⟩
      split at h
      · injection h
      · rename_i s2 l2 cw sd heq3
        have hinv2 := parse_loop_backendInv cfg dialOk _ _ _ _ _ _ heq3 hinv1
        split at h
        · injection h
        · rename_i s3 l3 heq4
          have hinv3 : backendInv s3 l3.spawned := by
            split at heq4
            · split at heq4
              · injection heq4
              · injection heq4 with heq4
                injection heq4 with h1 h2
                subst h1
                subst h2
                exact ⟨fun _ => hinv2.1 (by assumption), fun hsp => hinv2.2 hsp⟩
            · injection heq4 with heq4
              injection heq4 with h1 h2
              subst h1
              subst h2
              exact ⟨hinv2.1, hinv2.2⟩
          split at h
          · injection h with h
            subst h
            exact ⟨fun hc => hinv3.1 hc, fun hsp => hinv3.2 hsp⟩
          · injection h with h
            subst h
            exact hinv3

theorem backend_chunk_forwardInv (cfg : Config) (s : SessionInfo)
    (l : BackendLocal) (chunk : List Nat)
    (r : SessionInfo × BackendLocal × List (List Nat) × Bool)
    (h : backend_chunk cfg s l chunk = .val r)
    (hF : s.state = .Forward → s.backend_socket = true) :
    r.1.state = .Forward → r.1.backend_socket = true := by
  simp only [backend_chunk] at h
  split at h
  · injection h with h
    subst h
    exact hF
  · split at h
    · injection h
    · rename_i s1 l1 heq2
      have hF1 : s1.state = .Forward → s1.backend_socket = true := by
        split at heq2
        · injection heq2 with heq2
          injection heq2 with h1 h2
          subst h1
          intro hc
          cases hc
        · split at heq2
          · injection heq2
          · injection heq2 with heq2
            injection heq2 with h1 h2
            subst h1
            exact hF
      split at h
      · split at h
        · injection h with h
          subst h
          exact fun hc => hF1 (by assumption)
        · injection h with h
          subst h
          exact hF1
      · injection h with h
        subst h
        exact hF1

/-! ## Configuration-independence helpers (handshake_timeout) -/

theorem handle_packet_withTimeout (cfg : Config) (t : Nat)
    (spawned dialOk : Bool) (s : SessionInfo) (pkt : MinecraftPacket)
    (residual : List Nat) :
    handle_packet (withHandshakeTimeout cfg t) spawned dialOk s pkt residual
      = handle_packet cfg spawned dialOk s pkt residual := rfl

theorem withTimeout_client_buffer_size (cfg : Config) (t : Nat) :
    (withHandshakeTimeout cfg t).settings.client_buffer_size
      = cfg.settings.client_buffer_size := rfl

theorem parse_loop_withTimeout (cfg : Config) (t : Nat) (dialOk : Bool) :
    ∀ (fuel : Nat) (s : SessionInfo) (l : ClientLocal)
      (cw : List (List Nat)) (sd : Bool),
      parse_loop (withHandshakeTimeout cfg t) dialOk fuel s l cw sd
        = parse_loop cfg dialOk fuel s l cw sd := by
  intro fuel
  induction fuel with
  | zero => intro s l cw sd; rfl
  | succ fuel ih =>
    intro s l cw sd
    simp only [parse_loop, handle_packet_withTimeout, ih]

theorem handle_chunk_withTimeout (cfg : Config) (t : Nat) (dialOk : Bool)
    (s : SessionInfo) (l : ClientLocal) (chunk : List Nat) :
    handle_chunk (withHandshakeTimeout cfg t) dialOk s l chunk
      = handle_chunk cfg dialOk s l chunk := by
  simp only [handle_chunk, parse_loop_withTimeout, withTimeout_client_buffer_size]

theorem run_chunks_withTimeout (cfg : Config) (t : Nat) (dialOk : Bool) :
    ∀ (chunks : List (List Nat)) (s : SessionInfo) (l : ClientLocal),
      run_chunks (withHandshakeTimeout cfg t) dialOk s l chunks
        = run_chunks cfg dialOk s l chunks := by
  intro chunks
  induction chunks with
  | nil => intro s l; rfl
  | cons chunk rest ih =>
    intro s l
    simp only [run_chunks, handle_chunk_withTimeout, ih]

/-! ## Claim theorems -/

/-- C7: for every packet whose `len` field equals the length of its payload
bytes (the packet invariant), and whose `id` and length fit in `i32`,
parsing the result of encoding it yields an equal packet together with a
consumed count equal to the length of the encoded byte sequence. -/
theorem framer_round_trip (p : MinecraftPacket)
    (hinv : p.len = (p.data.length : Int))
    (hlen : p.data.length + 10 < 2 ^ 31)
    (hid1 : -(2 ^ 31) ≤ p.id) (hid2 : p.id < 2 ^ 31) :
    parse_packet p.encode = .val (.ok (p, p.encode.length)) :=
  parse_packet_encode p hinv hlen hid1 hid2

theorem framer_round_trip_witness :
    parse_packet (MinecraftPacket.mk 2 0 [7, 9]).encode
      = .val (.ok (MinecraftPacket.mk 2 0 [7, 9],
          (MinecraftPacket.mk 2 0 [7, 9]).encode.length)) :=
  framer_round_trip (MinecraftPacket.mk 2 0 [7, 9]) (by norm_num)
    (by norm_num) (by norm_num) (by norm_num)

set_option maxRecDepth 4096 in
/-- C3 (counterexample): the claim "parse of any strict prefix of an
encoding returns a recoverable error, never a successfully parsed packet"
fails at `k = 2` for the packet with `id = 0` and 253 payload bytes: its
encoding begins `0xFE 0x01`, and `parse_packet` of those two bytes returns
the legacy-ping sentinel packet successfully. -/
theorem legacy_sentinel_prefix_parses :
    (MinecraftPacket.mk 253 0 (List.replicate 253 0)).encode.take 2
      = [0xFE, 0x01] ∧
    2 < (MinecraftPacket.mk 253 0 (List.replicate 253 0)).encode.length ∧
    parse_packet
        ((MinecraftPacket.mk 253 0 (List.replicate 253 0)).encode.take 2)
      = .val (.ok (MinecraftPacket.mk 0 255 [], 2)) := by
  refine ⟨rfl, by decide, rfl⟩

/-- C3 (amended): for every packet satisfying the invariant and every
`k` strictly smaller than the length of its encoding, `parse_packet` of the
first `k` bytes returns a recoverable error (`EmptyBuffer` or
`PacketFormatError`) — except when `k = 2` and the encoding begins with the
two bytes `0xFE 0x01`, in which case the legacy-ping sentinel is returned
as a successfully parsed packet. -/
theorem partial_parse_recoverable (p : MinecraftPacket) (k : Nat)
    (hinv : p.len = (p.data.length : Int))
    (hlen : p.data.length + 10 < 2 ^ 31)
    (hk : k < p.encode.length)
    (hex : ¬(k = 2 ∧ p.encode.take 2 = [0xFE, 0x01])) :
    ∃ e, parse_packet (p.encode.take k) = .val (.error e) ∧
      e.recoverable = true :=
  parse_packet_encode_prefix p k hinv hlen hk hex

theorem partial_parse_recoverable_witness :
    ∃ e, parse_packet ((MinecraftPacket.mk 1 0 [7]).encode.take 1)
        = .val (.error e) ∧ e.recoverable = true :=
  partial_parse_recoverable (MinecraftPacket.mk 1 0 [7]) 1 (by norm_num)
    (by norm_num) (by decide) (by decide)

/-- C4: the claim that reading a variable-length integer is total fails for
`read_long`: invoked at an offset at or past the end of the buffer it
indexes `self[cursor]` out of bounds and panics, while `read_int` (whose
bounds check precedes the index) returns `None` on the same inputs. -/
theorem read_long_out_of_bounds_panics :
    read_long [] 0 = .panic ∧
    read_long [1, 2, 3] 3 = .panic ∧
    read_int [] 0 = none ∧
    read_int [1, 2, 3] 3 = none := by
  refine ⟨rfl, rfl, rfl, rfl⟩

set_option maxRecDepth 4096 in
/-- C1: in the `Login`-with-origin branch the residual client bytes that
follow the triggering packet are copied into `backend_send_buffer` but
`backend_send_buffer_len` is never increased, so they are never written to
the backend and are overwritten by the next chunk.  Processing the chunk
`[Handshake(next=2,"a") | LoginStart | 0xAA]` followed by the chunk `[0xBB]`
makes the backend receive exactly `[0xBB]`: the residual byte `0xAA` is
lost even though it was copied into the buffer at index 0. -/
theorem residual_bytes_dropped_on_forward :
    (∃ e1, handle_chunk exampleConfig true initialSession
        (initialClientLocal exampleConfig) loginChunkWithResidual = .val e1 ∧
      e1.info.state = .Forward ∧
      e1.info.backend_send_buffer.getD 0 0 = 170 ∧
      e1.info.backend_send_buffer_len = 0 ∧
      e1.backendWrites = []) ∧
    (∃ e, run_chunks exampleConfig true initialSession
        (initialClientLocal exampleConfig) [loginChunkWithResidual, [187]]
        = .val e ∧
      e.backendWrites = [[187]] ∧
      e.info.state = .Forward) := by
  exact ⟨⟨_, rfl, rfl, rfl, rfl, rfl⟩, ⟨_, rfl, rfl, rfl⟩⟩

/-- C2: a framed packet with id 0 in `Handshake` state whose payload fails
to decode produces `MalformedField` naming the failed field, but the
handler `unwrap()`s that error and panics: the session never transitions to
`Closed` and the handler does not terminate normally.  The failing input is
the 2-byte frame `[0x01, 0x00]` (a packet with id 0 and empty payload). -/
theorem malformed_handshake_panics :
    parse_packet [1, 0] = .val (.ok (MinecraftPacket.mk 0 0 [], 2)) ∧
    handshake_try_from []
      = .val (.error (.MalformedField (asciiBytes "protocol_version"))) ∧
    handle_chunk exampleConfig true initialSession
        (initialClientLocal exampleConfig) [1, 0] = .panic := by
  refine ⟨rfl, rfl, rfl⟩

/-- C5 (counterexample): the next_state varint is truncated `as u16`, so
the wire value 65537 (bytes `0x81 0x80 0x04`, not equal to 1 or 2) behaves
like 1: the session transitions to `Status` instead of `Closed`. -/
theorem next_state_truncation_to_status :
    read_int [0, 0, 0, 0, 129, 128, 4] 4 = some (65537, 3) ∧
    handshake_try_from [0, 0, 0, 0, 129, 128, 4]
      = .val (.ok (HandshakePacket.mk 0 [] 0 .STATUS)) ∧
    (∃ e, handle_chunk exampleConfig true initialSession
        (initialClientLocal exampleConfig) [8, 0, 0, 0, 0, 0, 129, 128, 4]
        = .val e ∧ e.info.state = .Status) := by
  refine ⟨by decide, rfl, ⟨_, rfl, rfl⟩⟩

/-- C9: the claim that a session still in `Handshake` after
`handshake_timeout` milliseconds is closed has no support in the code: the
session evolution is completely independent of the `handshake_timeout`
tunable, and a session that receives no bytes stays in `Handshake`
forever (the reader thread blocks in `read` with no deadline and no
watchdog exists). -/
theorem handshake_timeout_not_enforced (cfg : Config) (t : Nat)
    (dialOk : Bool) (s : SessionInfo) (l : ClientLocal)
    (chunks : List (List Nat)) :
    run_chunks (withHandshakeTimeout cfg t) dialOk s l chunks
      = run_chunks cfg dialOk s l chunks ∧
    run_chunks cfg dialOk initialSession l []
      = .val ⟨initialSession, l, [], [], false, false⟩ ∧
    initialSession.state = .Handshake := by
  exact ⟨run_chunks_withTimeout cfg t dialOk chunks s l, rfl, rfl⟩


/-- C5 (amended): dispatch on a successfully decoded Handshake packet is by
the *truncated* low 16 bits of the wire `next_state` value (the decoder
converts the varint through `as u16` before `MinecraftProtocolState::from`):
when `v % 2 ^ 16 = 1` the session moves to `Status`, when `v % 2 ^ 16 = 2`
to `Login`, and for every other residue to `Closed` with the client socket
shut down.  In particular a wire value outside `0..2 ^ 16` behaves like its
low 16 bits, not like "any other value". -/
theorem handshake_next_state_dispatch (cfg : Config) (spawned dialOk : Bool)
    (s : SessionInfo) (pkt : MinecraftPacket) (residual : List Nat)
    (hs : HandshakePacket) (v : Nat)
    (hstate : s.state = .Handshake) (hid : pkt.id = 0)
    (hdec : handshake_try_from pkt.data = .val (.ok hs))
    (hns : hs.next_state = MinecraftProtocolState.fromU16 (v % 2 ^ 16)) :
    ∃ eff, handle_packet cfg spawned dialOk s pkt residual = .val eff ∧
      eff.info.state = (if v % 2 ^ 16 = 1 then .Status
        else if v % 2 ^ 16 = 2 then .Login else .Closed) ∧
      eff.clientShutdown
        = (if v % 2 ^ 16 = 1 ∨ v % 2 ^ 16 = 2 then false else true) ∧
      eff.info.handshake_packet = some hs ∧
      eff.clientWrites = [] := by
  simp only [handle_packet, hstate, hid, hdec, reduceIte]
  rcases hm : v % 2 ^ 16 with _ | _ | _ | m
  · rw [hm] at hns
    rw [hns]
    exact ⟨_, rfl, by simp [switch_state], by simp, rfl, rfl⟩
  · rw [hm] at hns
    rw [hns]
    exact ⟨_, rfl, by simp [switch_state], by simp, rfl, rfl⟩
  · rw [hm] at hns
    rw [hns]
    exact ⟨_, rfl, by simp [switch_state], by simp, rfl, rfl⟩
  · rw [hm] at hns
    match m, hns with
    | 0, hns =>
      rw [hns]
      exact ⟨_, rfl, by simp [switch_state], by simp, rfl, rfl⟩
    | m + 1, hns =>
      rw [hns]
      exact ⟨_, rfl, by simp [switch_state], by simp, rfl, rfl⟩

theorem handshake_next_state_dispatch_witness :
    ∃ eff, handle_packet exampleConfig false true initialSession
        (MinecraftPacket.mk 7 0 [0, 0, 0, 0, 129, 128, 4]) [] = .val eff ∧
      eff.info.state = (if 65537 % 2 ^ 16 = 1 then .Status
        else if 65537 % 2 ^ 16 = 2 then .Login else .Closed) ∧
      eff.clientShutdown
        = (if 65537 % 2 ^ 16 = 1 ∨ 65537 % 2 ^ 16 = 2 then false else true) ∧
      eff.info.handshake_packet
        = some (HandshakePacket.mk 0 [] 0 .STATUS) ∧
      eff.clientWrites = [] :=
  handshake_next_state_dispatch exampleConfig false true initialSession
    (MinecraftPacket.mk 7 0 [0, 0, 0, 0, 129, 128, 4]) []
    (HandshakePacket.mk 0 [] 0 .STATUS) 65537 rfl rfl rfl (by decide)

/-- C6: on a `Login` packet whose matched routing entry has an origin, when
the dial fails (or times out: `dialOk = false` covers both outcomes of
`connect_timeout(origin, 3 s)`) the session regresses to `Status` with the
pending-disconnect message `"Bad Gateway"`, writing nothing to the client;
and a subsequent `Status` request (id 0) with a pending-disconnect message
set is answered with exactly one disconnect packet carrying that message,
the message is cleared, and the session moves to `Closed` with the client
socket shut down. -/
theorem login_dial_failure_bad_gateway :
    (∀ (cfg : Config) (s : SessionInfo) (pkt : MinecraftPacket)
       (residual : List Nat) (hs : HandshakePacket) (ep : ConfigEndpoint)
       (origin buf₂ : List Nat),
       s.state = .Login → s.handshake_packet = some hs →
       cfg.find_endpoint hs.server_address = some ep →
       ep.origin = some origin →
       writeRange s.backend_send_buffer s.backend_send_buffer_len residual
         = .val buf₂ →
       ∃ eff, handle_packet cfg false false s pkt residual = .val eff ∧
         eff.info.state = .Status ∧
         eff.info.disconnect_on_join = some badGatewayMsg ∧
         eff.clientWrites = [] ∧ eff.clientShutdown = false) ∧
    (∀ (cfg : Config) (spawned dialOk : Bool) (s : SessionInfo)
       (pkt : MinecraftPacket) (residual msg : List Nat),
       s.state = .Status → pkt.id = 0 → s.disconnect_on_join = some msg →
       ∃ eff, handle_packet cfg spawned dialOk s pkt residual = .val eff ∧
         eff.info.state = .Closed ∧ eff.info.disconnect_on_join = none ∧
         eff.clientWrites
           = [(create_disconnect_packet (ChatData.new msg)).encode] ∧
         eff.clientShutdown = true) := by
  constructor
  · intro cfg s pkt residual hs ep origin buf₂ hL hhs hep horig hw
    simp only [handle_packet, switch_state, hL, hhs, hep, horig, hw,
      reduceIte]
    exact ⟨_, rfl, rfl, rfl, rfl, rfl⟩
  · intro cfg spawned dialOk s pkt residual msg hS hid hdj
    simp only [handle_packet, hS, hid, hdj, reduceIte]
    exact ⟨_, rfl, rfl, rfl, rfl, rfl⟩

theorem login_dial_failure_bad_gateway_witness :
    (∃ eff, handle_packet exampleConfig false false
        ({ initialSession with
           state := .Login
           handshake_packet := some (HandshakePacket.mk 0 [97] 0 .LOGIN) })
        (MinecraftPacket.mk 1 0 [0]) [] = .val eff ∧
      eff.info.state = .Status ∧
      eff.info.disconnect_on_join = some badGatewayMsg ∧
      eff.clientWrites = [] ∧ eff.clientShutdown = false) ∧
    (∃ eff, handle_packet exampleConfig false false
        ({ initialSession with
           state := .Status
           disconnect_on_join := some badGatewayMsg })
        (MinecraftPacket.mk 0 0 []) [] = .val eff ∧
      eff.info.state = .Closed ∧ eff.info.disconnect_on_join = none ∧
      eff.clientWrites
        = [(create_disconnect_packet (ChatData.new badGatewayMsg)).encode] ∧
      eff.clientShutdown = true) :=
  ⟨login_dial_failure_bad_gateway.1 exampleConfig
      ({ initialSession with
         state := .Login
         handshake_packet := some (HandshakePacket.mk 0 [97] 0 .LOGIN) })
      (MinecraftPacket.mk 1 0 [0]) [] (HandshakePacket.mk 0 [97] 0 .LOGIN)
      { hostname := [97], origin := some (asciiBytes "127.0.0.1:25566"),
        motd := none, message := none }
      (asciiBytes "127.0.0.1:25566") (List.replicate BUFFER_SIZE 0)
      rfl rfl rfl rfl rfl,
   login_dial_failure_bad_gateway.2 exampleConfig false false
      ({ initialSession with
         state := .Status
         disconnect_on_join := some badGatewayMsg })
      (MinecraftPacket.mk 0 0 []) [] badGatewayMsg rfl rfl rfl⟩

/-- C8: `state == Forward` implies a present backend socket handle at every
lock boundary: the (strengthened, inductive) invariant `backendInv` holds
for a fresh session and is preserved by the client-side per-chunk critical
section; the backend reader's critical section preserves the
`Forward → backend_socket` implication as well. -/
theorem forward_implies_backend_socket :
    backendInv initialSession false ∧
    (∀ (cfg : Config) (dialOk : Bool) (s : SessionInfo) (l : ClientLocal)
       (chunk : List Nat) (e : ChunkEffect),
       handle_chunk cfg dialOk s l chunk = .val e →
       backendInv s l.spawned →
       backendInv e.info e.loc.spawned ∧
       (e.info.state = .Forward → e.info.backend_socket = true)) ∧
    (∀ (cfg : Config) (s : SessionInfo) (l : BackendLocal) (chunk : List Nat)
       (r : SessionInfo × BackendLocal × List (List Nat) × Bool),
       backend_chunk cfg s l chunk = .val r →
       (s.state = .Forward → s.backend_socket = true) →
       (r.1.state = .Forward → r.1.backend_socket = true)) := by
  refine ⟨⟨(fun hc => by cases hc), (fun hc => by cases hc)⟩, ?_, ?_⟩
  · intro cfg dialOk s l chunk e h hinv
    have hi := handle_chunk_backendInv cfg dialOk s l chunk e h hinv
    exact ⟨hi, hi.1⟩
  · intro cfg s l chunk r h hF
    exact backend_chunk_forwardInv cfg s l chunk r h hF

theorem forward_implies_backend_socket_witness :
    ∃ e, handle_chunk exampleConfig true initialSession
        (initialClientLocal exampleConfig) [170] = .val e ∧
      (backendInv e.info e.loc.spawned ∧
       (e.info.state = .Forward → e.info.backend_socket = true)) :=
  ⟨_, rfl, forward_implies_backend_socket.2.1 exampleConfig true
      initialSession (initialClientLocal exampleConfig) [170] _ rfl
      ⟨(fun hc => by cases hc), (fun hc => by cases hc)⟩⟩

/-- C10: a packet parsed in `Handshake` state whose id is neither 0 (a
handshake) nor 255 (the legacy-ping sentinel, which the handler only logs)
is silently ignored: the handler writes nothing, shuts nothing down, and
returns the session record unchanged — state, stored handshake fields,
pending-disconnect message and both pending-send buffers included.  (The
packet's bytes were already consumed by the parse loop's buffer shift,
which is independent of the id.) -/
theorem handshake_unknown_id_silently_ignored (cfg : Config)
    (spawned dialOk : Bool) (s : SessionInfo) (pkt : MinecraftPacket)
    (residual : List Nat) (hstate : s.state = .Handshake)
    (hid0 : pkt.id ≠ 0) (_hid255 : pkt.id ≠ 255) :
    handle_packet cfg spawned dialOk s pkt residual
      = .val ⟨s, [], false, false, spawned⟩ := by
  rw [handle_packet, if_pos hstate, if_neg hid0]

theorem handshake_unknown_id_silently_ignored_witness :
    handle_packet exampleConfig false true initialSession
        (MinecraftPacket.mk 0 7 []) []
      = .val ⟨initialSession, [], false, false, false⟩ :=
  handshake_unknown_id_silently_ignored exampleConfig false true
    initialSession (MinecraftPacket.mk 0 7 []) [] rfl (by decide) (by decide)

end PistonProxy
